import Mathlib

/-! # Resilient-Email: the dispatch logic of `src/emailService.js`

A shallow embedding of the class `EmailService`: the duplicate check
(`_isEmailUnique`), the fixed-window rate limiter (`_checkRateLimit`), the
retry loop with backoff and provider rotation (`_sendWithRetry`), the
orchestration (`send`), the identifier (`_generateEmailId`) and the
constructor.

Modelling decisions.

* The mutable fields of the class are the fields of the structure
  `EmailService`; every method takes the service and returns the service it
  leaves behind (explicit state passing), also when it throws.
* The providers are external collaborators.  The array `this.providers` is
  kept as its length `poolSize`; what a provider does in one call of
  `send` is given by an `Oracle`: for the attempt index, the position in
  the pool and the email it answers `some receipt` (the promise resolves)
  or `none` (the promise rejects).
* `Date.now()` is read twice by `send`, once in `_generateEmailId` and once
  in `_checkRateLimit`; both readings are arguments.  Clock readings are
  natural numbers (milliseconds); the difference `now - lastResetTime` is
  taken in the integers.
* `await new Promise(resolve => setTimeout(resolve, delay))` is recorded as
  the event `suspend delay`; a call `currentProvider.send(email)` is
  recorded as the event `attempt position`.
* A thrown `Error(msg)` is `Outcome.threw msg`; a returned object is
  `Outcome.returned`.
-/

namespace ResilientEmail

/-- The email object handed to `send`: the fields `to`, `subject`, `body`.
The field `to` is named `recipient` here, `to` being a keyword of Lean. -/
structure Email where
  recipient : String
  subject : String
  body : String
deriving DecidableEq, Repr

/-- What a provider resolves with: `messageId` and `providerName`. -/
structure Receipt where
  messageId : String
  providerName : String
deriving DecidableEq, Repr

/-- The object `this.config`. -/
structure Config where
  maxRetries : Nat
  baseDelay : Nat
  rateLimitPerMinute : Nat
  circuitBreakerThreshold : Nat
deriving DecidableEq, Repr

/-- The `options` argument of the constructor; an absent option is `none`. -/
structure Options where
  maxRetries : Option Nat
  baseDelay : Option Nat
  rateLimitPerMinute : Option Nat
  circuitBreakerThreshold : Option Nat
deriving DecidableEq, Repr

/-- The instance fields of the class `EmailService`.  `poolSize` is
`this.providers.length`; `sentEmails` lists the elements of the `Set` in
insertion order. -/
structure EmailService where
  poolSize : Nat
  currentProviderIndex : Nat
  sentEmails : List String
  config : Config
  emailsSentInCurrentMinute : Nat
  lastResetTime : Nat
deriving DecidableEq, Repr

/-- The behaviour of the providers during one call of `send`:
`oracle attempt position email` is what `this.providers[position].send(email)`
does at the given attempt index, `some receipt` when it resolves and `none`
when it rejects. -/
abbrev Oracle := Nat → Nat → Email → Option Receipt

/-- What a retry sequence does, in order. -/
inductive Event where
  | attempt (position : Nat)
  | suspend (delay : Nat)
deriving DecidableEq, Repr

/-- The object `send` returns. -/
inductive SendResult where
  | success (providerId : Nat) (messageId : String)
  | failed (error : String)
deriving DecidableEq, Repr

/-- How a call of `send` ends: with a thrown `Error(message)` or with a
returned object. -/
inductive Outcome where
  | threw (message : String)
  | returned (result : SendResult)
deriving DecidableEq, Repr

/-- The JavaScript expression `supplied || dflt` on an option that is absent
(`undefined`) or a number: both `undefined` and `0` are falsy. -/
def orDefault (supplied : Option Nat) (dflt : Nat) : Nat :=
  match supplied with
  | none => dflt
  | some v => if v = 0 then dflt else v

/-- The constructor `new EmailService(providers, options)`, run when
`Date.now()` reads `now`, over a pool of `poolSize` providers. -/
def EmailService.construct (poolSize : Nat) (options : Options) (now : Nat) :
    EmailService where
  poolSize := poolSize
  currentProviderIndex := 0
  sentEmails := []
  config :=
    { maxRetries := orDefault options.maxRetries 3
      baseDelay := orDefault options.baseDelay 1000
      rateLimitPerMinute := orDefault options.rateLimitPerMinute 10
      circuitBreakerThreshold := orDefault options.circuitBreakerThreshold 3 }
  emailsSentInCurrentMinute := 0
  lastResetTime := now

/-- The method `_generateEmailId`, with `Date.now()` reading `now`: the
template string of `email.to`, `email.subject` and the clock reading, which
JavaScript prints in decimal. -/
def generateEmailId (email : Email) (now : Nat) : String :=
  email.recipient ++ "_" ++ email.subject ++ "_" ++ Nat.repr now

/-- The method `_isEmailUnique`: the returned boolean and the service
afterwards. -/
def isEmailUnique (svc : EmailService) (emailId : String) : Bool × EmailService :=
  if emailId ∈ svc.sentEmails then
    (false, svc)
  else
    (true, { svc with sentEmails := svc.sentEmails ++ [emailId] })

/-- The method `_checkRateLimit`, with `Date.now()` reading `now`: whether it
throws (`Except.error message`) and the service afterwards. -/
def checkRateLimit (svc : EmailService) (now : Nat) : Except String Unit × EmailService :=
  let svc1 :=
    if (now : Int) - (svc.lastResetTime : Int) ≥ 60000 then
      { svc with emailsSentInCurrentMinute := 0, lastResetTime := now }
    else svc
  if svc1.emailsSentInCurrentMinute ≥ svc1.config.rateLimitPerMinute then
    (Except.error "Rate limit exceeded", svc1)
  else
    (Except.ok (), { svc1 with emailsSentInCurrentMinute := svc1.emailsSentInCurrentMinute + 1 })

/-- The call `this.providers[position].send(email)` inside the `try` block of
`_sendWithRetry`.  A position outside the pool yields `undefined`, whose
`send` raises a `TypeError` that the same `catch` handles: it counts as a
failed attempt. -/
def callProvider (svc : EmailService) (oracle : Oracle) (attempt : Nat) (email : Email) :
    Option Receipt :=
  if svc.currentProviderIndex < svc.poolSize then
    oracle attempt svc.currentProviderIndex email
  else none

/-- What `_sendWithRetry` leaves behind: the receipt or the thrown message,
the service afterwards and the events in order. -/
structure RetryRun where
  result : Except String Receipt
  service : EmailService
  trace : List Event

/-- The `for` loop of `_sendWithRetry` from attempt index `attempt` on, with
`remaining = maxRetries - attempt` iterations left. -/
def retryLoop (oracle : Oracle) (email : Email) :
    Nat → Nat → EmailService → RetryRun
  | 0, _, svc =>
    { result := Except.error "All email providers failed", service := svc, trace := [] }
  | remaining + 1, attempt, svc =>
    match callProvider svc oracle attempt email with
    | some receipt =>
      { result := Except.ok receipt, service := svc,
        trace := [Event.attempt svc.currentProviderIndex] }
    | none =>
      let delay := svc.config.baseDelay * 2 ^ attempt
      let svc1 := { svc with
        currentProviderIndex := (svc.currentProviderIndex + 1) % svc.poolSize }
      let rest := retryLoop oracle email remaining (attempt + 1) svc1
      { rest with
        trace := Event.attempt svc.currentProviderIndex :: Event.suspend delay :: rest.trace }

/-- The method `_sendWithRetry`. -/
def sendWithRetry (svc : EmailService) (email : Email) (oracle : Oracle) : RetryRun :=
  retryLoop oracle email svc.config.maxRetries 0 svc

/-- What a call of `send` leaves behind. -/
structure SendRun where
  outcome : Outcome
  service : EmailService
  trace : List Event

/-- The method `send`.  `idClock` is the reading of `Date.now()` inside
`_generateEmailId`, `rateClock` the reading inside `_checkRateLimit`. -/
def send (svc : EmailService) (email : Email) (idClock rateClock : Nat) (oracle : Oracle) :
    SendRun :=
  let emailId := generateEmailId email idClock
  match isEmailUnique svc emailId with
  | (false, svc1) =>
    { outcome := Outcome.threw "Duplicate email", service := svc1, trace := [] }
  | (true, svc1) =>
    match checkRateLimit svc1 rateClock with
    | (Except.error message, svc2) =>
      { outcome := Outcome.threw message, service := svc2, trace := [] }
    | (Except.ok (), svc2) =>
      let run := sendWithRetry svc2 email oracle
      match run.result with
      | Except.ok receipt =>
        { outcome := Outcome.returned
            (SendResult.success run.service.currentProviderIndex receipt.messageId)
          service := run.service, trace := run.trace }
      | Except.error message =>
        { outcome := Outcome.returned (SendResult.failed message)
          service := run.service, trace := run.trace }

/-! ## Observations on a run -/

/-- The positions of the provider calls recorded in a trace, in order. -/
def attemptsOf : List Event → List Nat
  | [] => []
  | Event.attempt p :: rest => p :: attemptsOf rest
  | Event.suspend _ :: rest => attemptsOf rest

/-- The delays of the suspensions recorded in a trace, in order. -/
def suspensionsOf : List Event → List Nat
  | [] => []
  | Event.attempt _ :: rest => suspensionsOf rest
  | Event.suspend d :: rest => d :: suspensionsOf rest

/-- The cursor at attempt `i` of a retry sequence that started at cursor `c0`
on a pool of `n` providers, when every earlier attempt failed: the rotation
of the `catch` block applied `i` times. -/
def cursorAt (n c0 : Nat) : Nat → Nat
  | 0 => c0
  | i + 1 => (cursorAt n c0 i + 1) % n

/-- What attempt `i` of a retry sequence on `svc` does when every earlier
attempt failed. -/
def attemptResult (svc : EmailService) (oracle : Oracle) (email : Email) (i : Nat) :
    Option Receipt :=
  callProvider { svc with currentProviderIndex := cursorAt svc.poolSize svc.currentProviderIndex i }
    oracle i email

/-- The events of `k` consecutive failed attempts that start at cursor `c`
and attempt index `a`: each attempt is followed by its backoff. -/
def failedEvents (n base : Nat) : Nat → Nat → Nat → List Event
  | _, _, 0 => []
  | c, a, k + 1 =>
    Event.attempt c :: Event.suspend (base * 2 ^ a) :: failedEvents n base ((c + 1) % n) (a + 1) k

/-- The count `_checkRateLimit` compares with the limit: zero when the reset
is due at `now`, the stored count otherwise. -/
def postResetCount (svc : EmailService) (now : Nat) : Nat :=
  if (now : Int) - (svc.lastResetTime : Int) ≥ 60000 then 0 else svc.emailsSentInCurrentMinute

/-- The service on which the retry sequence of `send` starts: the one left by
`_isEmailUnique` and then `_checkRateLimit`. -/
def serviceAfterChecks (svc : EmailService) (emailId : String) (rateClock : Nat) : EmailService :=
  (checkRateLimit (isEmailUnique svc emailId).2 rateClock).2

/-- The value of a decimal digit character. -/
def digitValue (c : Char) : Nat :=
  c.toNat - 48

/-- The number a list of decimal digit characters denotes. -/
def decimalValue (cs : List Char) : Nat :=
  cs.foldl (fun acc c => 10 * acc + digitValue c) 0

/-- One call of `send` as the caller and the environment determine it: the
email, the two clock readings and what the providers do during the call. -/
structure Call where
  email : Email
  idClock : Nat
  rateClock : Nat
  oracle : Oracle

/-- The identifier `send` generates for a call. -/
def Call.emailId (c : Call) : String :=
  generateEmailId c.email c.idClock

/-- A call of `send` on the service. -/
def Call.run (svc : EmailService) (c : Call) : SendRun :=
  send svc c.email c.idClock c.rateClock c.oracle

/-- A sequence of calls of `send` on one service, each on the service the
previous call left behind (a caller that catches what `send` throws and goes
on, as the test suite and the demonstration do): the outcomes in order and the
service after the last call. -/
def sendAll (svc : EmailService) : List Call → List Outcome × EmailService
  | [] => ([], svc)
  | c :: rest =>
    let run := c.run svc
    let later := sendAll run.service rest
    (run.outcome :: later.1, later.2)

/-! ## Concrete inputs, taken from the test suite and the demonstration -/

/-- The options object `{}`: every option absent. -/
def noOptions : Options :=
  { maxRetries := none, baseDelay := none, rateLimitPerMinute := none,
    circuitBreakerThreshold := none }

/-- The email of the test "Provider Fallback" in `src/emailTestCase.js`. -/
def fallbackEmail : Email :=
  { recipient := "fallback@example.com", subject := "Fallback Test",
    body := "Testing provider fallback" }

/-- The pool `[failingProvider, workingProvider]` of the test "Provider
Fallback": position 0 always rejects, position 1 always resolves. -/
def fallbackPool : Oracle := fun _ position _ =>
  if position = 1 then
    some { messageId := "WorkingProvider-1", providerName := "WorkingProvider" }
  else none

/-- A pool whose providers all reject. -/
def failingPool : Oracle := fun _ _ _ => none

/-- A pool whose providers all resolve, as `new MockEmailProvider(name, 1)`. -/
def workingPool : Oracle := fun _ _ _ =>
  some { messageId := "Provider1-1", providerName := "Provider1" }

/-- The options `{ rateLimitPerMinute: 2 }` of the test "Rate Limiting". -/
def rateLimitOptions : Options :=
  { maxRetries := none, baseDelay := none, rateLimitPerMinute := some 2,
    circuitBreakerThreshold := none }

/-- The email of the test "Rate Limiting" with the given subject. -/
def rateLimitEmail (subject : String) : Email :=
  { recipient := "ratelimit@example.com", subject := subject, body := "Testing rate limiting" }

/-- The three calls of the test "Rate Limiting", one millisecond apart. -/
def rateLimitCalls : List Call :=
  [ { email := rateLimitEmail "Rate Limit Test", idClock := 1001, rateClock := 1001,
      oracle := workingPool },
    { email := rateLimitEmail "Second Email", idClock := 1002, rateClock := 1002,
      oracle := failingPool },
    { email := rateLimitEmail "Third Email", idClock := 1003, rateClock := 1003,
      oracle := workingPool } ]

/-- A fourth call, made a minute after the service was constructed. -/
def rateLimitLaterCall : Call :=
  { email := rateLimitEmail "Fourth Email", idClock := 61000, rateClock := 61000,
    oracle := workingPool }

/-- The email of the test "Duplicate Email Prevention". -/
def duplicateEmail : Email :=
  { recipient := "duplicate@example.com", subject := "Duplicate Test",
    body := "This email should be unique." }

/-- The options `{ maxRetries: 3, baseDelay: 500 }` of the concrete fallback
scenario. -/
def fallbackOptions : Options :=
  { maxRetries := some 3, baseDelay := some 500, rateLimitPerMinute := none,
    circuitBreakerThreshold := none }

/-- The options `{ maxRetries: 1 }`. -/
def singleAttemptOptions : Options :=
  { maxRetries := some 1, baseDelay := none, rateLimitPerMinute := none,
    circuitBreakerThreshold := none }

/-- A sequence of calls of `_checkRateLimit` on one service at the given clock
readings, each on the service the previous call left behind: for every call
whether it succeeded (`true`) or threw (`false`), and the service after the
last call. -/
def checkAll (svc : EmailService) : List Nat → List Bool × EmailService
  | [] => ([], svc)
  | now :: later =>
    let step := checkRateLimit svc now
    let rest := checkAll step.2 later
    (step.1.toBool :: rest.1, rest.2)

/-- The options `{ rateLimitPerMinute: N }`. -/
def limitOptions (N : Nat) : Options :=
  { maxRetries := none, baseDelay := none, rateLimitPerMinute := some N,
    circuitBreakerThreshold := none }

/-- Clock readings that straddle the reset of a window started at 0: `N`
readings one millisecond before the window ends and `N` readings at its end. -/
def burstClocks (N : Nat) : List Nat :=
  List.replicate N 59999 ++ List.replicate N 60000

/-- The options `{ baseDelay: 0 }`: no delay between attempts. -/
def zeroDelayOptions : Options :=
  { maxRetries := none, baseDelay := some 0, rateLimitPerMinute := none,
    circuitBreakerThreshold := none }

/-- A default service constructed at clock 0 that has accepted five calls in
its first window. -/
def fiveSentService : EmailService :=
  { EmailService.construct 1 noOptions 0 with emailsSentInCurrentMinute := 5 }

/-- A default service constructed at clock 0 whose window is full. -/
def fullWindowService : EmailService :=
  { EmailService.construct 1 noOptions 0 with emailsSentInCurrentMinute := 10 }

/-- An email to the alias `build_bot`. -/
def aliasEmail : Email :=
  { recipient := "build_bot", subject := "Nightly report", body := "All green." }

/-- An email to the alias `build` whose subject starts with `bot_`. -/
def shiftedEmail : Email :=
  { recipient := "build", subject := "bot_Nightly report", body := "All green." }

/-! ## The rotation of the cursor -/

theorem cursorAt_shift (n c : Nat) : ∀ k, cursorAt n c (k + 1) = cursorAt n ((c + 1) % n) k
  | 0 => rfl
  | k + 1 => by
    show (cursorAt n c (k + 1) + 1) % n = (cursorAt n ((c + 1) % n) k + 1) % n
    rw [cursorAt_shift n c k]

theorem cursorAt_eq_mod (n c : Nat) (hc : c < n) : ∀ i, cursorAt n c i = (c + i) % n
  | 0 => by simp [cursorAt, Nat.mod_eq_of_lt hc]
  | i + 1 => by
    show (cursorAt n c i + 1) % n = (c + (i + 1)) % n
    rw [cursorAt_eq_mod n c hc i, Nat.mod_add_mod, Nat.add_assoc]

theorem cursorAt_succ_eq_mod (n c : Nat) : ∀ i, cursorAt n c (i + 1) = (c + (i + 1)) % n
  | 0 => rfl
  | i + 1 => by
    show (cursorAt n c (i + 1) + 1) % n = (c + (i + 1 + 1)) % n
    rw [cursorAt_succ_eq_mod n c i, Nat.mod_add_mod, Nat.add_assoc]

theorem cursorAt_lt (n c : Nat) (hn : 0 < n) (hc : c < n) : ∀ i, cursorAt n c i < n
  | 0 => hc
  | _ + 1 => Nat.mod_lt _ hn

/-! ## The retry loop -/

theorem callProvider_congr (svc svc1 : EmailService) (oracle : Oracle) (a : Nat) (email : Email)
    (hp : svc1.poolSize = svc.poolSize)
    (hc : svc1.currentProviderIndex = svc.currentProviderIndex) :
    callProvider svc1 oracle a email = callProvider svc oracle a email := by
  simp [callProvider, hp, hc]

theorem retryLoop_all_fail (oracle : Oracle) (email : Email) :
    ∀ (r a : Nat) (svc : EmailService),
      (∀ k, k < r → callProvider
        { svc with currentProviderIndex := cursorAt svc.poolSize svc.currentProviderIndex k }
        oracle (a + k) email = none) →
      retryLoop oracle email r a svc =
        { result := Except.error "All email providers failed"
          service := { svc with
            currentProviderIndex := cursorAt svc.poolSize svc.currentProviderIndex r }
          trace := failedEvents svc.poolSize svc.config.baseDelay svc.currentProviderIndex a r } := by
  intro r
  induction r with
  | zero => intro a svc _; rfl
  | succ r ih =>
    intro a svc h
    have h0 : callProvider svc oracle a email = none := h 0 (Nat.succ_pos r)
    have hrest := ih (a + 1)
      { svc with currentProviderIndex := (svc.currentProviderIndex + 1) % svc.poolSize }
      (by
        intro k hk
        have := h (k + 1) (Nat.succ_lt_succ hk)
        rw [cursorAt_shift] at this
        rw [Nat.add_assoc, Nat.add_comm 1 k]
        exact this)
    simp only [retryLoop, h0, hrest, failedEvents, cursorAt_shift]

theorem retryLoop_first_success (oracle : Oracle) (email : Email) (receipt : Receipt) :
    ∀ (j r a : Nat) (svc : EmailService), j < r →
      (∀ k, k < j → callProvider
        { svc with currentProviderIndex := cursorAt svc.poolSize svc.currentProviderIndex k }
        oracle (a + k) email = none) →
      callProvider
        { svc with currentProviderIndex := cursorAt svc.poolSize svc.currentProviderIndex j }
        oracle (a + j) email = some receipt →
      retryLoop oracle email r a svc =
        { result := Except.ok receipt
          service := { svc with
            currentProviderIndex := cursorAt svc.poolSize svc.currentProviderIndex j }
          trace := failedEvents svc.poolSize svc.config.baseDelay svc.currentProviderIndex a j ++
            [Event.attempt (cursorAt svc.poolSize svc.currentProviderIndex j)] } := by
  intro j
  induction j with
  | zero =>
    intro r a svc hr _ hs
    obtain ⟨r, rfl⟩ : ∃ q, r = q + 1 := ⟨r - 1, by omega⟩
    have h0 : callProvider svc oracle a email = some receipt := hs
    simp only [retryLoop, h0, failedEvents, cursorAt, List.nil_append]
  | succ j ih =>
    intro r a svc hr hf hs
    obtain ⟨r, rfl⟩ : ∃ q, r = q + 1 := ⟨r - 1, by omega⟩
    have h0 : callProvider svc oracle a email = none := hf 0 (Nat.succ_pos j)
    have hrest := ih r (a + 1)
      { svc with currentProviderIndex := (svc.currentProviderIndex + 1) % svc.poolSize }
      (by omega)
      (by
        intro k hk
        have := hf (k + 1) (Nat.succ_lt_succ hk)
        rw [cursorAt_shift] at this
        rw [Nat.add_assoc, Nat.add_comm 1 k]
        exact this)
      (by
        rw [cursorAt_shift] at hs
        rw [Nat.add_assoc, Nat.add_comm 1 j]
        exact hs)
    simp only [retryLoop, h0, hrest, failedEvents, cursorAt_shift, List.cons_append]

theorem attemptsOf_failedEvents (n base : Nat) :
    ∀ (k c a : Nat), attemptsOf (failedEvents n base c a k) = (List.range k).map (cursorAt n c)
  | 0, _, _ => rfl
  | k + 1, c, a => by
    rw [List.range_succ_eq_map, List.map_cons, List.map_map]
    simp only [failedEvents, attemptsOf, attemptsOf_failedEvents n base k]
    congr 1
    apply List.map_congr_left
    intro i _
    exact (cursorAt_shift n c i).symm

theorem suspensionsOf_failedEvents (n base : Nat) :
    ∀ (k c a : Nat),
      suspensionsOf (failedEvents n base c a k) = (List.range k).map (fun i => base * 2 ^ (a + i))
  | 0, _, _ => rfl
  | k + 1, c, a => by
    rw [List.range_succ_eq_map, List.map_cons, List.map_map]
    simp only [failedEvents, suspensionsOf, suspensionsOf_failedEvents n base k]
    congr 1
    apply List.map_congr_left
    intro i _
    simp [Nat.add_assoc, Nat.add_comm 1 i]

theorem attemptsOf_append (xs ys : List Event) :
    attemptsOf (xs ++ ys) = attemptsOf xs ++ attemptsOf ys := by
  induction xs with
  | nil => rfl
  | cons e xs ih => cases e <;> simp [attemptsOf, ih]

theorem suspensionsOf_append (xs ys : List Event) :
    suspensionsOf (xs ++ ys) = suspensionsOf xs ++ suspensionsOf ys := by
  induction xs with
  | nil => rfl
  | cons e xs ih => cases e <;> simp [suspensionsOf, ih]

theorem retryLoop_result_ok_iff (oracle : Oracle) (email : Email) (r a : Nat) (svc : EmailService) :
    (∃ receipt, (retryLoop oracle email r a svc).result = Except.ok receipt) ↔
      ∃ i, i < r ∧ (callProvider
        { svc with currentProviderIndex := cursorAt svc.poolSize svc.currentProviderIndex i }
        oracle (a + i) email).isSome = true := by
  classical
  by_cases hex : ∃ i, i < r ∧ (callProvider
        { svc with currentProviderIndex := cursorAt svc.poolSize svc.currentProviderIndex i }
        oracle (a + i) email).isSome = true
  · refine ⟨fun _ => hex, fun _ => ?_⟩
    have hj := Nat.find_spec hex
    have hmin := fun k (hk : k < Nat.find hex) => Nat.find_min hex hk
    obtain ⟨receipt, hreceipt⟩ := Option.isSome_iff_exists.mp hj.2
    refine ⟨receipt, ?_⟩
    rw [retryLoop_first_success oracle email receipt (Nat.find hex) r a svc hj.1 ?_ hreceipt]
    intro k hk
    have hno := hmin k hk
    rw [not_and] at hno
    have := hno (Nat.lt_trans hk hj.1)
    simpa using this
  · refine ⟨fun ⟨receipt, hr⟩ => ?_, fun h => absurd h hex⟩
    rw [retryLoop_all_fail oracle email r a svc ?_] at hr
    · cases hr
    · intro k hk
      by_contra hne
      exact hex ⟨k, hk, Option.isSome_iff_ne_none.mpr hne⟩

theorem retryLoop_result_error (oracle : Oracle) (email : Email) (r a : Nat) (svc : EmailService)
    (message : String) (h : (retryLoop oracle email r a svc).result = Except.error message) :
    message = "All email providers failed" := by
  induction r generalizing a svc with
  | zero =>
    simp only [retryLoop] at h
    cases h; rfl
  | succ r ih =>
    simp only [retryLoop] at h
    split at h
    · cases h
    · exact ih _ _ h

/-! ## The admission checks -/

theorem isEmailUnique_of_mem (svc : EmailService) (emailId : String)
    (h : emailId ∈ svc.sentEmails) : isEmailUnique svc emailId = (false, svc) := by
  simp [isEmailUnique, h]

theorem isEmailUnique_of_not_mem (svc : EmailService) (emailId : String)
    (h : emailId ∉ svc.sentEmails) :
    isEmailUnique svc emailId =
      (true, { svc with sentEmails := svc.sentEmails ++ [emailId] }) := by
  simp [isEmailUnique, h]

theorem checkRateLimit_of_reached (svc : EmailService) (now : Nat)
    (h : svc.config.rateLimitPerMinute ≤ postResetCount svc now) :
    (checkRateLimit svc now).1 = Except.error "Rate limit exceeded" := by
  unfold checkRateLimit postResetCount at *
  by_cases hr : (now : Int) - (svc.lastResetTime : Int) ≥ 60000
  · simp only [hr, if_true] at h ⊢
    simp [h]
  · simp only [hr, if_false] at h ⊢
    simp [h]

theorem checkRateLimit_of_below (svc : EmailService) (now : Nat)
    (h : postResetCount svc now < svc.config.rateLimitPerMinute) :
    checkRateLimit svc now =
      (Except.ok (), { svc with
        emailsSentInCurrentMinute := postResetCount svc now + 1
        lastResetTime :=
          if (now : Int) - (svc.lastResetTime : Int) ≥ 60000 then now else svc.lastResetTime }) := by
  unfold checkRateLimit postResetCount at *
  by_cases hr : (now : Int) - (svc.lastResetTime : Int) ≥ 60000
  · simp only [hr, if_true] at h ⊢
    simp [Nat.not_le.mpr h]
  · simp only [hr, if_false] at h ⊢
    simp [Nat.not_le.mpr h]

theorem send_of_recorded (svc : EmailService) (email : Email) (idClock rateClock : Nat)
    (oracle : Oracle) (h : generateEmailId email idClock ∈ svc.sentEmails) :
    send svc email idClock rateClock oracle =
      { outcome := Outcome.threw "Duplicate email", service := svc, trace := [] } := by
  simp only [send, isEmailUnique_of_mem svc _ h]

theorem send_of_limit_reached (svc : EmailService) (email : Email) (idClock rateClock : Nat)
    (oracle : Oracle) (h : generateEmailId email idClock ∉ svc.sentEmails)
    (hl : svc.config.rateLimitPerMinute ≤ postResetCount svc rateClock) :
    send svc email idClock rateClock oracle =
      { outcome := Outcome.threw "Rate limit exceeded"
        service := (checkRateLimit
          { svc with sentEmails := svc.sentEmails ++ [generateEmailId email idClock] }
          rateClock).2
        trace := [] } := by
  have hc := checkRateLimit_of_reached
    { svc with sentEmails := svc.sentEmails ++ [generateEmailId email idClock] } rateClock hl
  simp only [send, isEmailUnique_of_not_mem svc _ h]
  split
  · rename_i message svc2 heq
    rw [heq] at hc
    simp only at hc
    cases hc
    rw [heq]
  · rename_i svc2 heq
    rw [heq] at hc
    cases hc

theorem isEmailUnique_frame (svc : EmailService) (emailId : String) :
    (isEmailUnique svc emailId).2.poolSize = svc.poolSize ∧
      (isEmailUnique svc emailId).2.currentProviderIndex = svc.currentProviderIndex ∧
      (isEmailUnique svc emailId).2.config = svc.config ∧
      (isEmailUnique svc emailId).2.emailsSentInCurrentMinute = svc.emailsSentInCurrentMinute ∧
      (isEmailUnique svc emailId).2.lastResetTime = svc.lastResetTime := by
  unfold isEmailUnique
  split_ifs <;> exact ⟨rfl, rfl, rfl, rfl, rfl⟩

theorem checkRateLimit_frame (svc : EmailService) (now : Nat) :
    (checkRateLimit svc now).2.poolSize = svc.poolSize ∧
      (checkRateLimit svc now).2.currentProviderIndex = svc.currentProviderIndex ∧
      (checkRateLimit svc now).2.config = svc.config ∧
      (checkRateLimit svc now).2.sentEmails = svc.sentEmails := by
  by_cases hr : (now : Int) - (svc.lastResetTime : Int) ≥ 60000
  · by_cases hl : (0 : Nat) ≥ svc.config.rateLimitPerMinute
    · simp [checkRateLimit, hr, hl]
    · simp [checkRateLimit, hr, hl]
  · by_cases hl : svc.emailsSentInCurrentMinute ≥ svc.config.rateLimitPerMinute
    · simp [checkRateLimit, hr, hl]
    · simp [checkRateLimit, hr, hl]

theorem serviceAfterChecks_poolSize (svc : EmailService) (emailId : String) (rateClock : Nat) :
    (serviceAfterChecks svc emailId rateClock).poolSize = svc.poolSize :=
  (checkRateLimit_frame _ rateClock).1.trans (isEmailUnique_frame svc emailId).1

theorem serviceAfterChecks_cursor (svc : EmailService) (emailId : String) (rateClock : Nat) :
    (serviceAfterChecks svc emailId rateClock).currentProviderIndex =
      svc.currentProviderIndex :=
  (checkRateLimit_frame _ rateClock).2.1.trans (isEmailUnique_frame svc emailId).2.1

theorem serviceAfterChecks_config (svc : EmailService) (emailId : String) (rateClock : Nat) :
    (serviceAfterChecks svc emailId rateClock).config = svc.config :=
  (checkRateLimit_frame _ rateClock).2.2.1.trans (isEmailUnique_frame svc emailId).2.2.1

theorem serviceAfterChecks_of_accepted (svc : EmailService) (emailId : String) (rateClock : Nat)
    (hid : emailId ∉ svc.sentEmails)
    (hrate : postResetCount svc rateClock < svc.config.rateLimitPerMinute) :
    serviceAfterChecks svc emailId rateClock =
      { svc with
        sentEmails := svc.sentEmails ++ [emailId]
        emailsSentInCurrentMinute := postResetCount svc rateClock + 1
        lastResetTime :=
          if (rateClock : Int) - (svc.lastResetTime : Int) ≥ 60000 then rateClock
          else svc.lastResetTime } := by
  unfold serviceAfterChecks
  rw [isEmailUnique_of_not_mem svc _ hid]
  exact congrArg Prod.snd (checkRateLimit_of_below
    { svc with sentEmails := svc.sentEmails ++ [emailId] } rateClock hrate)

theorem send_of_accepted (svc : EmailService) (email : Email) (idClock rateClock : Nat)
    (oracle : Oracle) (h : generateEmailId email idClock ∉ svc.sentEmails)
    (hl : postResetCount svc rateClock < svc.config.rateLimitPerMinute) :
    send svc email idClock rateClock oracle =
      match (sendWithRetry (serviceAfterChecks svc (generateEmailId email idClock) rateClock)
          email oracle) with
      | { result := Except.ok receipt, service := svc3, trace := tr } =>
        { outcome := Outcome.returned
            (SendResult.success svc3.currentProviderIndex receipt.messageId)
          service := svc3, trace := tr }
      | { result := Except.error message, service := svc3, trace := tr } =>
        { outcome := Outcome.returned (SendResult.failed message)
          service := svc3, trace := tr } := by
  have hc : checkRateLimit
      { svc with sentEmails := svc.sentEmails ++ [generateEmailId email idClock] } rateClock =
      (Except.ok (), serviceAfterChecks svc (generateEmailId email idClock) rateClock) := by
    rw [serviceAfterChecks_of_accepted svc _ rateClock h hl]
    exact checkRateLimit_of_below
      { svc with sentEmails := svc.sentEmails ++ [generateEmailId email idClock] } rateClock hl
  simp only [send, isEmailUnique_of_not_mem svc _ h, hc]
  generalize sendWithRetry _ email oracle = run
  obtain ⟨result, svc3, tr⟩ := run
  cases result <;> rfl

theorem sendWithRetry_ok_iff (svc svc0 : EmailService) (email : Email) (oracle : Oracle)
    (hp : svc.poolSize = svc0.poolSize)
    (hc : svc.currentProviderIndex = svc0.currentProviderIndex)
    (hk : svc.config.maxRetries = svc0.config.maxRetries) :
    (∃ receipt, (sendWithRetry svc email oracle).result = Except.ok receipt) ↔
      ∃ i, i < svc0.config.maxRetries ∧ (attemptResult svc0 oracle email i).isSome = true := by
  unfold sendWithRetry attemptResult
  rw [retryLoop_result_ok_iff, hk]
  constructor
  · rintro ⟨i, hi, hs⟩
    refine ⟨i, hi, ?_⟩
    rw [Nat.zero_add] at hs
    rw [← hs]
    congr 1
    apply callProvider_congr <;> simp [hp, hc]
  · rintro ⟨i, hi, hs⟩
    refine ⟨i, hi, ?_⟩
    rw [Nat.zero_add, ← hs]
    congr 1
    apply callProvider_congr <;> simp [hp, hc]

theorem sendWithRetry_error (svc : EmailService) (email : Email) (oracle : Oracle) :
    ∀ message, (sendWithRetry svc email oracle).result = Except.error message →
      message = "All email providers failed" :=
  fun message h => retryLoop_result_error oracle email svc.config.maxRetries 0 svc message h

/-- C1: from every state with a non-empty pool, for every email, both clock
readings and every behaviour of the providers, `send` ends in exactly one of
four ways, decided in this order: it throws `Duplicate email` exactly when the
generated identifier is already in `sentEmails`; otherwise it throws
`Rate limit exceeded` exactly when the count after any due reset has reached
`rateLimitPerMinute`; otherwise it returns a `success` object exactly when one
of the first `maxRetries` attempts succeeds; otherwise it returns the `failed`
object with the error `All email providers failed`.  Nothing else is ever
thrown. -/
theorem send_outcome_cases (svc : EmailService) (email : Email) (idClock rateClock : Nat)
    (oracle : Oracle) (hpool : 0 < svc.poolSize) :
    ((send svc email idClock rateClock oracle).outcome = Outcome.threw "Duplicate email" ↔
        generateEmailId email idClock ∈ svc.sentEmails) ∧
    (generateEmailId email idClock ∉ svc.sentEmails →
      ((send svc email idClock rateClock oracle).outcome = Outcome.threw "Rate limit exceeded" ↔
        svc.config.rateLimitPerMinute ≤ postResetCount svc rateClock)) ∧
    (generateEmailId email idClock ∉ svc.sentEmails →
      postResetCount svc rateClock < svc.config.rateLimitPerMinute →
      ((∃ providerId messageId, (send svc email idClock rateClock oracle).outcome =
          Outcome.returned (SendResult.success providerId messageId)) ↔
        ∃ i, i < svc.config.maxRetries ∧ (attemptResult svc oracle email i).isSome = true)) ∧
    (generateEmailId email idClock ∉ svc.sentEmails →
      postResetCount svc rateClock < svc.config.rateLimitPerMinute →
      (¬ ∃ i, i < svc.config.maxRetries ∧ (attemptResult svc oracle email i).isSome = true) →
      (send svc email idClock rateClock oracle).outcome =
        Outcome.returned (SendResult.failed "All email providers failed")) ∧
    (∀ message, (send svc email idClock rateClock oracle).outcome = Outcome.threw message →
      message = "Duplicate email" ∨ message = "Rate limit exceeded") := by
  have _ := hpool
  by_cases hmem : generateEmailId email idClock ∈ svc.sentEmails
  · have hs := send_of_recorded svc email idClock rateClock oracle hmem
    refine ⟨by simp [hs, hmem], fun h => absurd hmem h, fun h => absurd hmem h,
      fun h => absurd hmem h, ?_⟩
    intro message hm
    rw [hs] at hm
    cases hm
    exact Or.inl rfl
  · by_cases hl : svc.config.rateLimitPerMinute ≤ postResetCount svc rateClock
    · have hs := send_of_limit_reached svc email idClock rateClock oracle hmem hl
      refine ⟨by simp [hs, hmem], fun _ => by simp [hs, hl], fun _ h => absurd hl (Nat.not_le.mpr h),
        fun _ h => absurd hl (Nat.not_le.mpr h), ?_⟩
      intro message hm
      rw [hs] at hm
      cases hm
      exact Or.inr rfl
    · have hlt := Nat.not_le.mp hl
      have hs := send_of_accepted svc email idClock rateClock oracle hmem hlt
      have hiff := sendWithRetry_ok_iff
        (serviceAfterChecks svc (generateEmailId email idClock) rateClock) svc email oracle
        (serviceAfterChecks_poolSize _ _ _) (serviceAfterChecks_cursor _ _ _)
        (congrArg Config.maxRetries (serviceAfterChecks_config _ _ _))
      have herr := sendWithRetry_error
        (serviceAfterChecks svc (generateEmailId email idClock) rateClock) email oracle
      rw [hs]
      revert hiff herr
      generalize sendWithRetry _ email oracle = run
      obtain ⟨result, svc3, tr⟩ := run
      intro hiff herr
      cases result with
      | error message =>
        have hmsg := herr message rfl
        subst hmsg
        have hnone : ¬ ∃ i, i < svc.config.maxRetries ∧
            (attemptResult svc oracle email i).isSome = true := by
          intro h
          obtain ⟨receipt, hr⟩ := hiff.mpr h
          cases hr
        refine ⟨by simp [hmem], fun _ => by simp [hl], fun _ _ => ?_, fun _ _ _ => rfl, ?_⟩
        · constructor
          · rintro ⟨p, m, hpm⟩
            cases hpm
          · intro h
            exact absurd h hnone
        · intro message hm
          cases hm
      | ok receipt =>
        have hsome := hiff.mp ⟨receipt, rfl⟩
        refine ⟨by simp [hmem], fun _ => by simp [hl], fun _ _ => ?_,
          fun _ _ h => absurd hsome h, ?_⟩
        · exact ⟨fun _ => hsome, fun _ => ⟨_, _, rfl⟩⟩
        · intro message hm
          cases hm

/-- Witness for C1: the fallback pool of the test suite behind a freshly
constructed service. -/
theorem send_outcome_cases_witness :
    0 < (EmailService.construct 2 noOptions 1000).poolSize ∧
      (send (EmailService.construct 2 noOptions 1000) fallbackEmail 1000 1000 fallbackPool).outcome =
        Outcome.returned (SendResult.success 1 "WorkingProvider-1") ∧
      ((∃ providerId messageId,
          (send (EmailService.construct 2 noOptions 1000) fallbackEmail 1000 1000
            fallbackPool).outcome = Outcome.returned (SendResult.success providerId messageId)) ↔
        ∃ i, i < (EmailService.construct 2 noOptions 1000).config.maxRetries ∧
          (attemptResult (EmailService.construct 2 noOptions 1000) fallbackPool fallbackEmail
            i).isSome = true) :=
  ⟨by decide, by decide,
    (send_outcome_cases (EmailService.construct 2 noOptions 1000) fallbackEmail 1000 1000
      fallbackPool (by decide)).2.2.1 (by decide) (by decide)⟩

/-! ## The two shapes of a retry sequence -/

theorem attemptResult_eq_oracle (svc : EmailService) (oracle : Oracle) (email : Email)
    (hn : 0 < svc.poolSize) (hc : svc.currentProviderIndex < svc.poolSize) (i : Nat) :
    attemptResult svc oracle email i =
      oracle i ((svc.currentProviderIndex + i) % svc.poolSize) email := by
  simp [attemptResult, callProvider, cursorAt_eq_mod _ _ hc, Nat.mod_lt _ hn]

theorem sendWithRetry_first_success (svc : EmailService) (email : Email) (oracle : Oracle)
    (j : Nat) (receipt : Receipt) (hj : j < svc.config.maxRetries)
    (hfail : ∀ k, k < j → attemptResult svc oracle email k = none)
    (hok : attemptResult svc oracle email j = some receipt) :
    sendWithRetry svc email oracle =
      { result := Except.ok receipt
        service := { svc with
          currentProviderIndex := cursorAt svc.poolSize svc.currentProviderIndex j }
        trace := failedEvents svc.poolSize svc.config.baseDelay svc.currentProviderIndex 0 j ++
          [Event.attempt (cursorAt svc.poolSize svc.currentProviderIndex j)] } := by
  unfold sendWithRetry
  apply retryLoop_first_success oracle email receipt j _ 0 svc hj
  · intro k hk
    rw [Nat.zero_add]
    exact hfail k hk
  · rw [Nat.zero_add]
    exact hok

theorem sendWithRetry_all_fail (svc : EmailService) (email : Email) (oracle : Oracle)
    (hfail : ∀ k, k < svc.config.maxRetries → attemptResult svc oracle email k = none) :
    sendWithRetry svc email oracle =
      { result := Except.error "All email providers failed"
        service := { svc with
          currentProviderIndex :=
            cursorAt svc.poolSize svc.currentProviderIndex svc.config.maxRetries }
        trace := failedEvents svc.poolSize svc.config.baseDelay svc.currentProviderIndex 0
          svc.config.maxRetries } := by
  unfold sendWithRetry
  apply retryLoop_all_fail oracle email _ 0 svc
  intro k hk
  rw [Nat.zero_add]
  exact hfail k hk

theorem sendWithRetry_cases (svc : EmailService) (email : Email) (oracle : Oracle) :
    (∃ j receipt, j < svc.config.maxRetries ∧
        (∀ k, k < j → attemptResult svc oracle email k = none) ∧
        attemptResult svc oracle email j = some receipt) ∨
      (∀ k, k < svc.config.maxRetries → attemptResult svc oracle email k = none) := by
  classical
  by_cases hex : ∃ i, i < svc.config.maxRetries ∧ (attemptResult svc oracle email i).isSome = true
  · left
    obtain ⟨receipt, hreceipt⟩ := Option.isSome_iff_exists.mp (Nat.find_spec hex).2
    refine ⟨Nat.find hex, receipt, (Nat.find_spec hex).1, ?_, hreceipt⟩
    intro k hk
    have hno := Nat.find_min hex hk
    rw [not_and] at hno
    simpa using hno (Nat.lt_trans hk (Nat.find_spec hex).1)
  · right
    intro k hk
    by_contra hne
    exact hex ⟨k, hk, Option.isSome_iff_ne_none.mpr hne⟩

theorem attemptsOf_success_trace (n base c j : Nat) (hc : c < n) :
    attemptsOf (failedEvents n base c 0 j ++ [Event.attempt (cursorAt n c j)]) =
      (List.range (j + 1)).map (fun i => (c + i) % n) := by
  rw [attemptsOf_append, attemptsOf_failedEvents, List.range_succ, List.map_append]
  simp only [attemptsOf, List.map_cons, List.map_nil, cursorAt_eq_mod n c hc j]
  congr 1
  apply List.map_congr_left
  intro i _
  exact cursorAt_eq_mod n c hc i

theorem attemptsOf_failure_trace (n base c k : Nat) (hc : c < n) :
    attemptsOf (failedEvents n base c 0 k) = (List.range k).map (fun i => (c + i) % n) := by
  rw [attemptsOf_failedEvents]
  apply List.map_congr_left
  intro i _
  exact cursorAt_eq_mod n c hc i

/-- C2: on a pool of `n ≥ 1` providers, from a cursor `c0 < n` and with
`maxRetries = K ≥ 1`, the attempts of `_sendWithRetry` are made one after
another, attempt `i` going to position `(c0 + i) mod n`; the sequence stops at
the first attempt that succeeds and returns its receipt; when every attempt
fails exactly `K` attempts are made and the method throws
`All email providers failed`. -/
theorem sendWithRetry_rotation (svc : EmailService) (email : Email) (oracle : Oracle)
    (hn : 1 ≤ svc.poolSize) (hc : svc.currentProviderIndex < svc.poolSize)
    (hK : 1 ≤ svc.config.maxRetries) :
    attemptsOf (sendWithRetry svc email oracle).trace =
        (List.range (attemptsOf (sendWithRetry svc email oracle).trace).length).map
          (fun i => (svc.currentProviderIndex + i) % svc.poolSize) ∧
    1 ≤ (attemptsOf (sendWithRetry svc email oracle).trace).length ∧
    (attemptsOf (sendWithRetry svc email oracle).trace).length ≤ svc.config.maxRetries ∧
    (∀ j receipt, j < svc.config.maxRetries →
      (∀ i, i < j → oracle i ((svc.currentProviderIndex + i) % svc.poolSize) email = none) →
      oracle j ((svc.currentProviderIndex + j) % svc.poolSize) email = some receipt →
      (sendWithRetry svc email oracle).result = Except.ok receipt ∧
        (attemptsOf (sendWithRetry svc email oracle).trace).length = j + 1) ∧
    ((∀ i, i < svc.config.maxRetries →
        oracle i ((svc.currentProviderIndex + i) % svc.poolSize) email = none) →
      (sendWithRetry svc email oracle).result = Except.error "All email providers failed" ∧
        (attemptsOf (sendWithRetry svc email oracle).trace).length = svc.config.maxRetries) := by
  have hres := attemptResult_eq_oracle svc oracle email hn hc
  have hshape : attemptsOf (sendWithRetry svc email oracle).trace =
        (List.range (attemptsOf (sendWithRetry svc email oracle).trace).length).map
          (fun i => (svc.currentProviderIndex + i) % svc.poolSize) ∧
      1 ≤ (attemptsOf (sendWithRetry svc email oracle).trace).length ∧
      (attemptsOf (sendWithRetry svc email oracle).trace).length ≤ svc.config.maxRetries := by
    rcases sendWithRetry_cases svc email oracle with ⟨j, receipt, hj, hfail, hok⟩ | hfail
    · rw [sendWithRetry_first_success svc email oracle j receipt hj hfail hok]
      simp only [attemptsOf_success_trace _ _ _ j hc, List.length_map, List.length_range]
      exact ⟨trivial, by omega, by omega⟩
    · rw [sendWithRetry_all_fail svc email oracle hfail]
      simp only [attemptsOf_failure_trace _ _ _ _ hc, List.length_map, List.length_range]
      exact ⟨trivial, hK, le_refl _⟩
  refine ⟨hshape.1, hshape.2.1, hshape.2.2, ?_, ?_⟩
  · intro j receipt hj hfail hok
    rw [sendWithRetry_first_success svc email oracle j receipt hj
      (fun k hk => (hres k).trans (hfail k hk)) ((hres j).trans hok)]
    simp [attemptsOf_success_trace _ _ _ j hc]
  · intro hfail
    rw [sendWithRetry_all_fail svc email oracle (fun k hk => (hres k).trans (hfail k hk))]
    simp [attemptsOf_failure_trace _ _ _ _ hc]

/-- Witness for C2: the fallback pool, default configuration. -/
theorem sendWithRetry_rotation_witness :
    1 ≤ (EmailService.construct 2 noOptions 1000).poolSize ∧
      (EmailService.construct 2 noOptions 1000).currentProviderIndex <
        (EmailService.construct 2 noOptions 1000).poolSize ∧
      1 ≤ (EmailService.construct 2 noOptions 1000).config.maxRetries ∧
      attemptsOf (sendWithRetry (EmailService.construct 2 noOptions 1000) fallbackEmail
          fallbackPool).trace =
        (List.range (attemptsOf (sendWithRetry (EmailService.construct 2 noOptions 1000)
          fallbackEmail fallbackPool).trace).length).map
          (fun i => ((EmailService.construct 2 noOptions 1000).currentProviderIndex + i) %
            (EmailService.construct 2 noOptions 1000).poolSize) :=
  ⟨by decide, by decide, by decide,
    (sendWithRetry_rotation (EmailService.construct 2 noOptions 1000) fallbackEmail fallbackPool
      (by decide) (by decide) (by decide)).1⟩

/-- C3: for an accepted `send` on a pool of `n ≥ 1` providers with starting
cursor `c0 < n`, when the first successful attempt is attempt `j < maxRetries`
the call returns the `success` object with `providerId = (c0 + j) mod n` and
the `messageId` of the receipt that provider returned, and it leaves
`currentProviderIndex` at `(c0 + j) mod n`. -/
theorem send_success_result (svc : EmailService) (email : Email) (idClock rateClock : Nat)
    (oracle : Oracle) (hn : 1 ≤ svc.poolSize) (hc : svc.currentProviderIndex < svc.poolSize)
    (hid : generateEmailId email idClock ∉ svc.sentEmails)
    (hrate : postResetCount svc rateClock < svc.config.rateLimitPerMinute)
    (j : Nat) (receipt : Receipt) (hj : j < svc.config.maxRetries)
    (hfail : ∀ i, i < j →
      oracle i ((svc.currentProviderIndex + i) % svc.poolSize) email = none)
    (hok : oracle j ((svc.currentProviderIndex + j) % svc.poolSize) email = some receipt) :
    (send svc email idClock rateClock oracle).outcome =
        Outcome.returned (SendResult.success
          ((svc.currentProviderIndex + j) % svc.poolSize) receipt.messageId) ∧
      (send svc email idClock rateClock oracle).service.currentProviderIndex =
        (svc.currentProviderIndex + j) % svc.poolSize := by
  rw [send_of_accepted svc email idClock rateClock oracle hid hrate]
  have hp := serviceAfterChecks_poolSize svc (generateEmailId email idClock) rateClock
  have hcur := serviceAfterChecks_cursor svc (generateEmailId email idClock) rateClock
  have hcfg := serviceAfterChecks_config svc (generateEmailId email idClock) rateClock
  have hres : ∀ i, attemptResult
      (serviceAfterChecks svc (generateEmailId email idClock) rateClock) oracle email i =
      oracle i ((svc.currentProviderIndex + i) % svc.poolSize) email := by
    intro i
    rw [attemptResult_eq_oracle _ oracle email (by rw [hp]; exact hn)
      (by rw [hcur, hp]; exact hc) i, hcur, hp]
  rw [sendWithRetry_first_success _ email oracle j receipt (by rw [hcfg]; exact hj)
    (fun k hk => (hres k).trans (hfail k hk)) ((hres j).trans hok)]
  simp only [hcur, hp, cursorAt_eq_mod _ _ hc j, and_self]

/-- Witness for C3: the fallback pool, where the first success is attempt 1. -/
theorem send_success_result_witness :
    (send (EmailService.construct 2 noOptions 1000) fallbackEmail 1000 1000 fallbackPool).outcome =
        Outcome.returned (SendResult.success ((0 + 1) % 2) "WorkingProvider-1") ∧
      (send (EmailService.construct 2 noOptions 1000) fallbackEmail 1000 1000
        fallbackPool).service.currentProviderIndex = (0 + 1) % 2 :=
  send_success_result (EmailService.construct 2 noOptions 1000) fallbackEmail 1000 1000
    fallbackPool (by decide) (by decide) (by decide) (by decide) 1
    { messageId := "WorkingProvider-1", providerName := "WorkingProvider" } (by decide)
    (fun i hi => by
      obtain rfl : i = 0 := Nat.lt_one_iff.mp hi
      rfl)
    rfl

/-- C4: with a limit `L ≥ 1`, `_checkRateLimit` throws `Rate limit exceeded`
exactly when the count after any due reset has reached `L`, that is, exactly
when no reset is due and the stored count has reached `L`; when it throws the
service (count and window start included) is left unchanged; when it does not
throw the count is the count after the reset plus one.  It does one or the
other. -/
theorem checkRateLimit_contract (svc : EmailService) (now : Nat)
    (hL : 1 ≤ svc.config.rateLimitPerMinute)
    (hcount : svc.emailsSentInCurrentMinute ≤ svc.config.rateLimitPerMinute)
    (hnow : svc.lastResetTime ≤ now) :
    ((checkRateLimit svc now).1 = Except.error "Rate limit exceeded" ↔
        svc.config.rateLimitPerMinute ≤ postResetCount svc now) ∧
    ((checkRateLimit svc now).1 = Except.error "Rate limit exceeded" ↔
        (now : Int) - (svc.lastResetTime : Int) < 60000 ∧
          svc.config.rateLimitPerMinute ≤ svc.emailsSentInCurrentMinute) ∧
    ((checkRateLimit svc now).1 = Except.error "Rate limit exceeded" →
        (checkRateLimit svc now).2 = svc) ∧
    ((checkRateLimit svc now).1 = Except.ok () →
        (checkRateLimit svc now).2.emailsSentInCurrentMinute = postResetCount svc now + 1) ∧
    ((checkRateLimit svc now).1 = Except.error "Rate limit exceeded" ∨
        (checkRateLimit svc now).1 = Except.ok ()) := by
  have _ := hcount
  have _ := hnow
  by_cases hr : (now : Int) - (svc.lastResetTime : Int) ≥ 60000
  · have hp : postResetCount svc now = 0 := by simp [postResetCount, hr]
    have hlt : postResetCount svc now < svc.config.rateLimitPerMinute := by omega
    have hck := checkRateLimit_of_below svc now hlt
    rw [hck]
    refine ⟨?_, ?_, ?_, ?_, Or.inr rfl⟩
    · simp; omega
    · simp; omega
    · intro h; cases h
    · intro _; rfl
  · have hp : postResetCount svc now = svc.emailsSentInCurrentMinute := by
      simp [postResetCount, hr]
    by_cases hlim : svc.config.rateLimitPerMinute ≤ svc.emailsSentInCurrentMinute
    · have hthrow : checkRateLimit svc now = (Except.error "Rate limit exceeded", svc) := by
        simp [checkRateLimit, hr, hlim]
      rw [hthrow, hp]
      refine ⟨by simp [hlim], by simp [hlim]; omega, fun _ => rfl, ?_, Or.inl rfl⟩
      intro h; cases h
    · have hlt : postResetCount svc now < svc.config.rateLimitPerMinute := by omega
      have hck := checkRateLimit_of_below svc now hlt
      rw [hck]
      refine ⟨?_, ?_, ?_, ?_, Or.inr rfl⟩
      · simp; omega
      · simp; omega
      · intro h; cases h
      · intro _; rfl

/-- Witness for C4: a service whose window is full, asked again inside the
window. -/
theorem checkRateLimit_contract_witness :
    (checkRateLimit
        { EmailService.construct 1 noOptions 1000 with emailsSentInCurrentMinute := 10 } 2000).1 =
        Except.error "Rate limit exceeded" ∧
      (checkRateLimit
        { EmailService.construct 1 noOptions 1000 with emailsSentInCurrentMinute := 10 } 2000).2 =
        { EmailService.construct 1 noOptions 1000 with emailsSentInCurrentMinute := 10 } :=
  have h := checkRateLimit_contract
    { EmailService.construct 1 noOptions 1000 with emailsSentInCurrentMinute := 10 } 2000
    (by decide) (by decide) (by decide)
  ⟨h.1.mpr (by decide), h.2.2.1 (h.1.mpr (by decide))⟩

/-! ## What a call of `send` does to the service -/

theorem retryLoop_frame (oracle : Oracle) (email : Email) :
    ∀ (r a : Nat) (svc : EmailService),
      (retryLoop oracle email r a svc).service =
        { svc with
          currentProviderIndex := (retryLoop oracle email r a svc).service.currentProviderIndex }
  | 0, _, _ => rfl
  | r + 1, a, svc => by
    simp only [retryLoop]
    split
    · rfl
    · exact retryLoop_frame oracle email r (a + 1) _

theorem sendWithRetry_frame (svc : EmailService) (email : Email) (oracle : Oracle) :
    (sendWithRetry svc email oracle).service =
      { svc with
        currentProviderIndex := (sendWithRetry svc email oracle).service.currentProviderIndex } :=
  retryLoop_frame oracle email svc.config.maxRetries 0 svc

/-- An accepted call returns an object and leaves the service of the admission
checks with, at most, a moved cursor. -/
theorem send_accepted_service (svc : EmailService) (email : Email) (idClock rateClock : Nat)
    (oracle : Oracle) (hid : generateEmailId email idClock ∉ svc.sentEmails)
    (hrate : postResetCount svc rateClock < svc.config.rateLimitPerMinute) :
    (∃ result, (send svc email idClock rateClock oracle).outcome = Outcome.returned result) ∧
      (send svc email idClock rateClock oracle).service =
        { svc with
          currentProviderIndex :=
            (send svc email idClock rateClock oracle).service.currentProviderIndex
          sentEmails := svc.sentEmails ++ [generateEmailId email idClock]
          emailsSentInCurrentMinute := postResetCount svc rateClock + 1
          lastResetTime :=
            if (rateClock : Int) - (svc.lastResetTime : Int) ≥ 60000 then rateClock
            else svc.lastResetTime } := by
  rw [send_of_accepted svc email idClock rateClock oracle hid hrate]
  have hframe := sendWithRetry_frame
    (serviceAfterChecks svc (generateEmailId email idClock) rateClock) email oracle
  rw [serviceAfterChecks_of_accepted svc _ rateClock hid hrate] at hframe ⊢
  revert hframe
  generalize sendWithRetry _ email oracle = run
  obtain ⟨result, svc3, tr⟩ := run
  intro hframe
  cases result with
  | error message => exact ⟨⟨_, rfl⟩, hframe⟩
  | ok receipt => exact ⟨⟨_, rfl⟩, hframe⟩

/-- Whatever its outcome, a call leaves `sentEmails` as it was with, at most,
the generated identifier added at the end; the identifier is recorded
afterwards. -/
theorem send_sentEmails (svc : EmailService) (email : Email) (idClock rateClock : Nat)
    (oracle : Oracle) :
    (send svc email idClock rateClock oracle).service.sentEmails =
      if generateEmailId email idClock ∈ svc.sentEmails then svc.sentEmails
      else svc.sentEmails ++ [generateEmailId email idClock] := by
  by_cases hid : generateEmailId email idClock ∈ svc.sentEmails
  · rw [send_of_recorded svc email idClock rateClock oracle hid, if_pos hid]
  · rw [if_neg hid]
    by_cases hl : svc.config.rateLimitPerMinute ≤ postResetCount svc rateClock
    · rw [send_of_limit_reached svc email idClock rateClock oracle hid hl]
      exact (checkRateLimit_frame _ rateClock).2.2.2
    · rw [(send_accepted_service svc email idClock rateClock oracle hid (Nat.not_le.mp hl)).2]

/-! ## Sequences of calls -/

theorem sendAll_append (svc : EmailService) (xs ys : List Call) :
    sendAll svc (xs ++ ys) =
      ((sendAll svc xs).1 ++ (sendAll (sendAll svc xs).2 ys).1,
        (sendAll (sendAll svc xs).2 ys).2) := by
  induction xs generalizing svc with
  | nil => rfl
  | cons c xs ih =>
    rw [List.cons_append]
    simp only [sendAll]
    rw [ih]
    rfl

theorem checkRateLimit_throw_unchanged (svc : EmailService) (now : Nat)
    (hL : 1 ≤ svc.config.rateLimitPerMinute)
    (h : svc.config.rateLimitPerMinute ≤ postResetCount svc now) :
    checkRateLimit svc now = (Except.error "Rate limit exceeded", svc) := by
  by_cases hr : (now : Int) - (svc.lastResetTime : Int) ≥ 60000
  · have : postResetCount svc now = 0 := by simp [postResetCount, hr]
    omega
  · have hp : postResetCount svc now = svc.emailsSentInCurrentMinute := by
      simp [postResetCount, hr]
    rw [hp] at h
    simp [checkRateLimit, hr, h]

/-- With a limit of at least one, a call rejected by the rate check leaves the
service as it was but for the identifier it has recorded. -/
theorem send_rate_limited (svc : EmailService) (email : Email) (idClock rateClock : Nat)
    (oracle : Oracle) (hid : generateEmailId email idClock ∉ svc.sentEmails)
    (hL : 1 ≤ svc.config.rateLimitPerMinute)
    (hl : svc.config.rateLimitPerMinute ≤ postResetCount svc rateClock) :
    send svc email idClock rateClock oracle =
      { outcome := Outcome.threw "Rate limit exceeded"
        service := { svc with sentEmails := svc.sentEmails ++ [generateEmailId email idClock] }
        trace := [] } := by
  rw [send_of_limit_reached svc email idClock rateClock oracle hid hl,
    checkRateLimit_throw_unchanged
      { svc with sentEmails := svc.sentEmails ++ [generateEmailId email idClock] } rateClock hL hl]

/-- Inside one window, calls with fresh, pairwise distinct identifiers that fit
in what is left of the budget are all accepted, each adding one to the count. -/
theorem sendAll_within_budget (t0 : Nat) :
    ∀ (calls : List Call) (svc : EmailService),
      svc.lastResetTime = t0 →
      svc.emailsSentInCurrentMinute + calls.length ≤ svc.config.rateLimitPerMinute →
      (∀ c ∈ calls, (c.rateClock : Int) - (t0 : Int) < 60000) →
      (calls.map Call.emailId).Nodup →
      (∀ c ∈ calls, c.emailId ∉ svc.sentEmails) →
      (∀ o ∈ (sendAll svc calls).1, ∃ result, o = Outcome.returned result) ∧
        (sendAll svc calls).1.length = calls.length ∧
        (sendAll svc calls).2.lastResetTime = t0 ∧
        (sendAll svc calls).2.emailsSentInCurrentMinute =
          svc.emailsSentInCurrentMinute + calls.length ∧
        (sendAll svc calls).2.config = svc.config ∧
        (sendAll svc calls).2.sentEmails = svc.sentEmails ++ calls.map Call.emailId := by
  intro calls
  induction calls with
  | nil => intro svc h0 _ _ _ _; simp [sendAll, h0]
  | cons c rest ih =>
    intro svc h0 hbudget hwin hnodup hfresh
    have hid : generateEmailId c.email c.idClock ∉ svc.sentEmails :=
      hfresh c (List.mem_cons_self _ _)
    have hnoreset : ¬ ((c.rateClock : Int) - (svc.lastResetTime : Int) ≥ 60000) := by
      have := hwin c (List.mem_cons_self _ _)
      rw [h0]; omega
    have hp : postResetCount svc c.rateClock = svc.emailsSentInCurrentMinute := by
      simp [postResetCount, hnoreset]
    have hrate : postResetCount svc c.rateClock < svc.config.rateLimitPerMinute := by
      rw [hp]
      simp only [List.length_cons] at hbudget
      omega
    obtain ⟨hout, hsvc⟩ :=
      send_accepted_service svc c.email c.idClock c.rateClock c.oracle hid hrate
    have hwin0 : ¬ (60000 ≤ (c.rateClock : Int) - (t0 : Int)) := by
      have := hwin c (List.mem_cons_self _ _)
      omega
    have hlast : (c.run svc).service.lastResetTime = t0 := by
      have := congrArg EmailService.lastResetTime hsvc
      simp only [h0, ge_iff_le, hwin0, if_false] at this
      exact this
    have hcount : (c.run svc).service.emailsSentInCurrentMinute =
        svc.emailsSentInCurrentMinute + 1 := by
      have := congrArg EmailService.emailsSentInCurrentMinute hsvc
      simp only [hp] at this
      exact this
    have hconfig : (c.run svc).service.config = svc.config := by
      have := congrArg EmailService.config hsvc
      exact this
    have hsent : (c.run svc).service.sentEmails = svc.sentEmails ++ [c.emailId] := by
      have := congrArg EmailService.sentEmails hsvc
      exact this
    rw [List.map_cons, List.nodup_cons] at hnodup
    simp only [List.length_cons] at hbudget
    have hnext := ih (c.run svc).service hlast
      (by rw [hcount, hconfig]; omega)
      (fun d hd => hwin d (List.mem_cons_of_mem _ hd))
      hnodup.2
      (by
        intro d hd
        rw [hsent]
        simp only [List.mem_append, List.mem_singleton, not_or]
        refine ⟨hfresh d (List.mem_cons_of_mem _ hd), ?_⟩
        intro heq
        apply hnodup.1
        rw [← heq]
        exact List.mem_map_of_mem Call.emailId hd)
    obtain ⟨h1, h2, h3, h4, h5, h6⟩ := hnext
    simp only [sendAll]
    refine ⟨?_, by simp [h2], h3, ?_, ?_, ?_⟩
    · intro o ho
      rcases List.mem_cons.mp ho with rfl | ho
      · exact hout
      · exact h1 o ho
    · rw [h4, hcount]
      simp only [List.length_cons]
      omega
    · rw [h5, hconfig]
    · rw [h6, hsent]
      simp

theorem construct_rateLimit (poolSize t0 N : Nat) (options : Options) (hN : 1 ≤ N)
    (hopt : options.rateLimitPerMinute = some N) :
    (EmailService.construct poolSize options t0).config.rateLimitPerMinute = N := by
  have hne : N ≠ 0 := by omega
  simp [EmailService.construct, orDefault, hopt, hne]

/-- C5: on a service constructed at clock reading `t0` with
`rateLimitPerMinute = N ≥ 1`, of `N + 1` calls of `send` with pairwise distinct
identifiers whose rate-check clock readings all lie less than 60000 ms after
`t0`, the first `N` return an object (they pass the rate check, whatever the
providers do) and the last throws `Rate limit exceeded`; a further call with a
fresh identifier made 60000 ms or more after `t0` returns an object again. -/
theorem rate_limit_window (N poolSize t0 : Nat) (options : Options) (hN : 1 ≤ N)
    (hopt : options.rateLimitPerMinute = some N)
    (calls : List Call) (hlen : calls.length = N + 1)
    (hdistinct : (calls.map Call.emailId).Nodup)
    (hwindow : ∀ c ∈ calls, (c.rateClock : Int) - (t0 : Int) < 60000)
    (later : Call) (hfresh : later.emailId ∉ calls.map Call.emailId)
    (hlater : (later.rateClock : Int) - (t0 : Int) ≥ 60000) :
    (∀ k, k < N → ∃ result,
        (sendAll (EmailService.construct poolSize options t0) calls).1[k]? =
          some (Outcome.returned result)) ∧
      (sendAll (EmailService.construct poolSize options t0) calls).1[N]? =
        some (Outcome.threw "Rate limit exceeded") ∧
      ∃ result,
        (later.run (sendAll (EmailService.construct poolSize options t0) calls).2).outcome =
          Outcome.returned result := by
  have hne : calls ≠ [] := by
    intro h
    rw [h] at hlen
    simp at hlen
  obtain ⟨first, extra, rfl⟩ : ∃ first extra, calls = first ++ [extra] :=
    ⟨calls.dropLast, calls.getLast hne, (List.dropLast_append_getLast hne).symm⟩
  have hfirst : first.length = N := by
    simp only [List.length_append, List.length_singleton] at hlen
    omega
  have hlimit := construct_rateLimit poolSize t0 N options hN hopt
  rw [List.map_append, List.nodup_append] at hdistinct
  obtain ⟨hnodup, -, hdisj⟩ := hdistinct
  obtain ⟨h1, h2, h3, h4, h5, h6⟩ := sendAll_within_budget t0 first
    (EmailService.construct poolSize options t0) rfl
    (by rw [hlimit, hfirst]; simp [EmailService.construct])
    (fun c hc => hwindow c (List.mem_append_left _ hc))
    hnodup
    (fun c _ => by simp [EmailService.construct])
  have hcount : (sendAll (EmailService.construct poolSize options t0)
      first).2.emailsSentInCurrentMinute = N := by
    rw [h4, hfirst]
    simp [EmailService.construct]
  have hsent : (sendAll (EmailService.construct poolSize options t0) first).2.sentEmails =
      first.map Call.emailId := by
    rw [h6]
    simp [EmailService.construct]
  have hcfg : (sendAll (EmailService.construct poolSize options t0)
      first).2.config.rateLimitPerMinute = N := by
    rw [h5, hlimit]
  have hextraId : generateEmailId extra.email extra.idClock ∉
      (sendAll (EmailService.construct poolSize options t0) first).2.sentEmails := by
    rw [hsent]
    intro hmem
    exact hdisj hmem (by simp [Call.emailId])
  have hextraWin : ¬ ((extra.rateClock : Int) -
      ((sendAll (EmailService.construct poolSize options t0) first).2.lastResetTime : Int) ≥
        60000) := by
    have := hwindow extra (by simp)
    rw [h3]
    omega
  have hreached : (sendAll (EmailService.construct poolSize options t0)
      first).2.config.rateLimitPerMinute ≤
      postResetCount (sendAll (EmailService.construct poolSize options t0) first).2
        extra.rateClock := by
    simp only [postResetCount, hextraWin, if_false, hcount, hcfg, le_refl]
  have hthrow := send_rate_limited
    (sendAll (EmailService.construct poolSize options t0) first).2 extra.email extra.idClock
    extra.rateClock extra.oracle hextraId (by simp only [hcfg]; exact hN) hreached
  rw [sendAll_append]
  simp only [sendAll, Call.run, hthrow]
  refine ⟨?_, ?_, ?_⟩
  · intro k hk
    have hk1 : k < (sendAll (EmailService.construct poolSize options t0) first).1.length := by
      rw [h2, hfirst]; exact hk
    rw [List.getElem?_append_left hk1, List.getElem?_eq_getElem hk1]
    obtain ⟨result, hres⟩ := h1 _ (List.getElem_mem hk1)
    exact ⟨result, congrArg some hres⟩
  · have hlenN : (sendAll (EmailService.construct poolSize options t0) first).1.length = N := by
      rw [h2, hfirst]
    rw [List.getElem?_append_right (by rw [hlenN]), hlenN]
    simp
  · have hlaterId : generateEmailId later.email later.idClock ∉
        (sendAll (EmailService.construct poolSize options t0) first).2.sentEmails ++
          [generateEmailId extra.email extra.idClock] := by
      rw [hsent]
      intro hmem
      apply hfresh
      rw [List.map_append]
      simpa [Call.emailId] using hmem
    have hreset : (later.rateClock : Int) -
        ((sendAll (EmailService.construct poolSize options t0) first).2.lastResetTime : Int) ≥
          60000 := by
      rw [h3]; exact hlater
    exact (send_accepted_service _ later.email later.idClock later.rateClock later.oracle
      hlaterId (by simp only [postResetCount, hreset, if_true, hcfg]; exact hN)).1

/-- Witness for C5: the three calls of the test "Rate Limiting" on a service
with `rateLimitPerMinute = 2`, and a fourth call a minute later. -/
theorem rate_limit_window_witness :
    (sendAll (EmailService.construct 1 rateLimitOptions 1000) rateLimitCalls).1[2]? =
        some (Outcome.threw "Rate limit exceeded") ∧
      ∃ result,
        (rateLimitLaterCall.run
          (sendAll (EmailService.construct 1 rateLimitOptions 1000) rateLimitCalls).2).outcome =
          Outcome.returned result :=
  (rate_limit_window 2 1 1000 rateLimitOptions (by decide) rfl rateLimitCalls rfl (by decide)
    (by simp [rateLimitCalls]) rateLimitLaterCall (by decide) (by decide)).2

/-! ## The duplicate check -/

theorem send_records (svc : EmailService) (email : Email) (idClock rateClock : Nat)
    (oracle : Oracle) :
    generateEmailId email idClock ∈
      (send svc email idClock rateClock oracle).service.sentEmails := by
  rw [send_sentEmails]
  split_ifs with h
  · exact h
  · simp

theorem send_keeps (svc : EmailService) (email : Email) (idClock rateClock : Nat)
    (oracle : Oracle) (x : String) (hx : x ∈ svc.sentEmails) :
    x ∈ (send svc email idClock rateClock oracle).service.sentEmails := by
  rw [send_sentEmails]
  split_ifs
  · exact hx
  · exact List.mem_append_left _ hx

theorem sendAll_keeps (x : String) :
    ∀ (calls : List Call) (svc : EmailService),
      x ∈ svc.sentEmails → x ∈ (sendAll svc calls).2.sentEmails
  | [], _, hx => hx
  | c :: rest, svc, hx =>
    sendAll_keeps x rest (c.run svc).service
      (send_keeps svc c.email c.idClock c.rateClock c.oracle x hx)

/-- C6: over every sequence of calls of `send` on one service `sentEmails`
never loses an element; and once a call has generated an identifier (whatever
that call then returned or threw), every later call that generates the same
identifier throws `Duplicate email`, however many calls lie in between and
whatever the clock reads. -/
theorem sentEmails_never_evicts :
    (∀ (svc : EmailService) (calls : List Call) (x : String),
        x ∈ svc.sentEmails → x ∈ (sendAll svc calls).2.sentEmails) ∧
      (∀ (svc : EmailService) (first : Call) (between : List Call) (again : Call),
        again.emailId = first.emailId →
        (again.run (sendAll (first.run svc).service between).2).outcome =
          Outcome.threw "Duplicate email") := by
  refine ⟨fun svc calls x hx => sendAll_keeps x calls svc hx, ?_⟩
  intro svc first between again hsame
  have hrec : again.emailId ∈ (sendAll (first.run svc).service between).2.sentEmails := by
    rw [hsame]
    exact sendAll_keeps _ between _
      (send_records svc first.email first.idClock first.rateClock first.oracle)
  exact congrArg SendRun.outcome
    (send_of_recorded _ again.email again.idClock again.rateClock again.oracle hrec)

/-- Witness for C6: the same identifier generated again after the three calls
of the test "Rate Limiting". -/
theorem sentEmails_never_evicts_witness :
    (Call.run (sendAll (Call.run (EmailService.construct 1 noOptions 1000)
        { email := duplicateEmail, idClock := 1000, rateClock := 1000,
          oracle := failingPool }).service rateLimitCalls).2
      { email := duplicateEmail, idClock := 1000, rateClock := 90000,
        oracle := workingPool }).outcome = Outcome.threw "Duplicate email" :=
  sentEmails_never_evicts.2 (EmailService.construct 1 noOptions 1000)
    { email := duplicateEmail, idClock := 1000, rateClock := 1000, oracle := failingPool }
    rateLimitCalls
    { email := duplicateEmail, idClock := 1000, rateClock := 90000, oracle := workingPool } rfl

/-- C7, evaluated on the code: the email of the test "Duplicate Email
Prevention" sent twice through a fresh service over one working provider, the
second call one millisecond after the first.  The test expects the second call
to throw `Duplicate email`; it returns a `success` object like the first. -/
theorem duplicate_not_prevented :
    (sendAll (EmailService.construct 1 noOptions 1000)
        [ { email := duplicateEmail, idClock := 1000, rateClock := 1000, oracle := workingPool },
          { email := duplicateEmail, idClock := 1001, rateClock := 1001,
            oracle := workingPool } ]).1 =
      [ Outcome.returned (SendResult.success 0 "Provider1-1"),
        Outcome.returned (SendResult.success 0 "Provider1-1") ] := by
  decide

/-! ## The identifier -/

theorem digitValue_digitChar (d : Nat) (hd : d < 10) : digitValue (Nat.digitChar d) = d := by
  interval_cases d <;> rfl

theorem foldl_toDigitsCore :
    ∀ (fuel n : Nat) (ds : List Char), n < fuel →
      List.foldl (fun acc c => 10 * acc + digitValue c) 0 (Nat.toDigitsCore 10 fuel n ds) =
        List.foldl (fun acc c => 10 * acc + digitValue c) n ds
  | 0, _, _, h => absurd h (Nat.not_lt_zero _)
  | fuel + 1, n, ds, h => by
    have hd : digitValue (Nat.digitChar (n % 10)) = n % 10 :=
      digitValue_digitChar _ (Nat.mod_lt _ (by decide))
    by_cases hq : n / 10 = 0
    · simp only [Nat.toDigitsCore, hq, if_true, List.foldl_cons, hd]
      congr 1
      omega
    · simp only [Nat.toDigitsCore, hq, if_false]
      rw [foldl_toDigitsCore fuel (n / 10) _ (by omega), List.foldl_cons, hd]
      congr 1
      omega

theorem decimalValue_repr (n : Nat) : decimalValue (Nat.repr n).data = n := by
  show List.foldl _ 0 (Nat.toDigitsCore 10 (n + 1) n []) = n
  rw [foldl_toDigitsCore (n + 1) n [] (Nat.lt_succ_self n)]
  rfl

theorem repr_injective (a b : Nat) (h : Nat.repr a = Nat.repr b) : a = b := by
  have := congrArg (fun s => decimalValue s.data) h
  simpa [decimalValue_repr] using this

theorem generateEmailId_clock (email : Email) (t1 t2 : Nat) :
    generateEmailId email t1 = generateEmailId email t2 ↔ t1 = t2 := by
  constructor
  · intro h
    have hdata := congrArg String.data h
    simp only [generateEmailId, String.data_append] at hdata
    exact repr_injective t1 t2 (String.ext (List.append_cancel_left hdata))
  · rintro rfl
    rfl

theorem send_outcome_dup_iff (svc : EmailService) (email : Email) (idClock rateClock : Nat)
    (oracle : Oracle) :
    (send svc email idClock rateClock oracle).outcome = Outcome.threw "Duplicate email" ↔
      generateEmailId email idClock ∈ svc.sentEmails := by
  constructor
  · intro h
    by_contra hid
    by_cases hl : svc.config.rateLimitPerMinute ≤ postResetCount svc rateClock
    · rw [send_of_limit_reached svc email idClock rateClock oracle hid hl] at h
      have hne : Outcome.threw "Rate limit exceeded" ≠ Outcome.threw "Duplicate email" := by
        decide
      exact hne h
    · obtain ⟨result, hres⟩ :=
        (send_accepted_service svc email idClock rateClock oracle hid (Nat.not_le.mp hl)).1
      rw [hres] at h
      cases h
  · intro hid
    rw [send_of_recorded svc email idClock rateClock oracle hid]

/-- C8: for one email the identifiers generated at the clock readings `t1` and
`t2` are equal exactly when `t1 = t2`.  Hence, after a first `send` of the
email at `t1`, a second `send` of it whose identifier was not already recorded
before the first throws `Duplicate email` when `t2 = t1` and passes the
duplicate check when `t2` is any other millisecond. -/
theorem generateEmailId_same_millisecond :
    (∀ (email : Email) (t1 t2 : Nat),
        generateEmailId email t1 = generateEmailId email t2 ↔ t1 = t2) ∧
      (∀ (svc : EmailService) (email : Email) (t1 t2 rate1 rate2 : Nat) (oracle1 oracle2 : Oracle),
        generateEmailId email t2 ∉ svc.sentEmails →
        ((send (send svc email t1 rate1 oracle1).service email t2 rate2 oracle2).outcome =
            Outcome.threw "Duplicate email" ↔ t1 = t2)) := by
  refine ⟨generateEmailId_clock, ?_⟩
  intro svc email t1 t2 rate1 rate2 oracle1 oracle2 hnew
  constructor
  · intro hdup
    have hmem := (send_outcome_dup_iff (send svc email t1 rate1 oracle1).service email t2 rate2
      oracle2).mp hdup
    rw [send_sentEmails] at hmem
    split_ifs at hmem with h1
    · exact absurd hmem hnew
    · rcases List.mem_append.mp hmem with h | h
      · exact absurd h hnew
      · exact ((generateEmailId_clock email t1 t2).mp (List.mem_singleton.mp h).symm)
  · rintro rfl
    exact congrArg SendRun.outcome
      (send_of_recorded _ email t1 rate2 oracle2 (send_records svc email t1 rate1 oracle1))

/-- Witness for C8: the email of the test "Duplicate Email Prevention" sent
again one millisecond later. -/
theorem generateEmailId_same_millisecond_witness :
    generateEmailId duplicateEmail 1001 ∉ (EmailService.construct 1 noOptions 1000).sentEmails ∧
      ((send (send (EmailService.construct 1 noOptions 1000) duplicateEmail 1000 1000
          workingPool).service duplicateEmail 1001 1001 workingPool).outcome =
          Outcome.threw "Duplicate email" ↔ 1000 = 1001) :=
  ⟨by decide, generateEmailId_same_millisecond.2 (EmailService.construct 1 noOptions 1000)
    duplicateEmail 1000 1001 1000 1001 workingPool workingPool (by decide)⟩

/-! ## Fallback and exhaustion -/

/-- C9: on a service over two providers with the cursor at 0 (as the
constructor leaves it), `maxRetries ≥ 2` and any `baseDelay`, when position 0
always rejects and position 1 always resolves, every `send` that passes the
two admission checks returns the `success` object with `providerId = 1` and
the `messageId` of the receipt of position 1, having made exactly two attempts,
at position 0 and then at position 1, with exactly one suspension in between,
of `baseDelay` time units. -/
theorem fallback_two_providers (svc : EmailService) (email : Email) (idClock rateClock : Nat)
    (oracle : Oracle) (hpool : svc.poolSize = 2) (hcursor : svc.currentProviderIndex = 0)
    (hK : 2 ≤ svc.config.maxRetries)
    (hid : generateEmailId email idClock ∉ svc.sentEmails)
    (hrate : postResetCount svc rateClock < svc.config.rateLimitPerMinute)
    (hfails : ∀ attempt message, oracle attempt 0 message = none)
    (hworks : ∀ attempt message, (oracle attempt 1 message).isSome = true) :
    ∃ receipt, oracle 1 1 email = some receipt ∧
      (send svc email idClock rateClock oracle).outcome =
        Outcome.returned (SendResult.success 1 receipt.messageId) ∧
      (send svc email idClock rateClock oracle).trace =
        [Event.attempt 0, Event.suspend svc.config.baseDelay, Event.attempt 1] := by
  obtain ⟨receipt, hreceipt⟩ := Option.isSome_iff_exists.mp (hworks 1 email)
  refine ⟨receipt, hreceipt, ?_⟩
  have hp := serviceAfterChecks_poolSize svc (generateEmailId email idClock) rateClock
  have hcur := serviceAfterChecks_cursor svc (generateEmailId email idClock) rateClock
  have hcfg := serviceAfterChecks_config svc (generateEmailId email idClock) rateClock
  rw [hpool] at hp
  rw [hcursor] at hcur
  have h0 : attemptResult (serviceAfterChecks svc (generateEmailId email idClock) rateClock)
      oracle email 0 = none := by
    simp [attemptResult, callProvider, cursorAt, hp, hcur, hfails]
  have h1 : attemptResult (serviceAfterChecks svc (generateEmailId email idClock) rateClock)
      oracle email 1 = some receipt := by
    simp [attemptResult, callProvider, cursorAt, hp, hcur, hreceipt]
  rw [send_of_accepted svc email idClock rateClock oracle hid hrate,
    sendWithRetry_first_success _ email oracle 1 receipt (by rw [hcfg]; omega)
      (fun k hk => by
        obtain rfl : k = 0 := Nat.lt_one_iff.mp hk
        exact h0) h1]
  simp [failedEvents, cursorAt, hp, hcur, hcfg]

/-- Witness for C9: the scenario of the specification, `maxRetries = 3` and
`baseDelay = 500` over the pool of the test "Provider Fallback". -/
theorem fallback_two_providers_witness :
    ∃ receipt, fallbackPool 1 1 fallbackEmail = some receipt ∧
      (send (EmailService.construct 2 fallbackOptions 1000) fallbackEmail 1000 1000
        fallbackPool).outcome = Outcome.returned (SendResult.success 1 receipt.messageId) ∧
      (send (EmailService.construct 2 fallbackOptions 1000) fallbackEmail 1000 1000
        fallbackPool).trace = [Event.attempt 0, Event.suspend 500, Event.attempt 1] :=
  fallback_two_providers (EmailService.construct 2 fallbackOptions 1000) fallbackEmail 1000 1000
    fallbackPool rfl rfl (by decide) (by decide) (by decide) (fun _ _ => rfl) (fun _ _ => rfl)

theorem sum_backoff (base : Nat) :
    ∀ k, ((List.range k).map (fun i => base * 2 ^ i)).sum = base * (2 ^ k - 1)
  | 0 => by simp
  | k + 1 => by
    rw [List.range_succ, List.map_append, List.sum_append, sum_backoff base k]
    obtain ⟨m, hm⟩ : ∃ m, 2 ^ k = m + 1 := ⟨2 ^ k - 1, by
      have := Nat.one_le_two_pow (n := k)
      omega⟩
    simp only [List.map_cons, List.map_nil, List.sum_cons, List.sum_nil, pow_succ, hm]
    have : (m + 1) * 2 - 1 = m + (m + 1) := by omega
    rw [this]
    simp only [Nat.add_sub_cancel, Nat.add_zero]
    ring

/-- C10 as the claim states it fails: with the default configuration
(`maxRetries = 3`, `baseDelay = 1000`) over providers that all reject, `send`
returns `failed` after suspensions of 1000, 2000 and 4000, not of 1000 and
2000 only; with `maxRetries = 1` it suspends for 1000 after its only attempt,
not for zero. -/
theorem backoff_after_last_attempt :
    (send (EmailService.construct 2 noOptions 1000) fallbackEmail 1000 1000 failingPool).outcome =
        Outcome.returned (SendResult.failed "All email providers failed") ∧
      suspensionsOf (send (EmailService.construct 2 noOptions 1000) fallbackEmail 1000 1000
        failingPool).trace = [1000, 2000, 4000] ∧
      (suspensionsOf (send (EmailService.construct 2 noOptions 1000) fallbackEmail 1000 1000
        failingPool).trace).sum ≠
        ((List.range ((EmailService.construct 2 noOptions 1000).config.maxRetries - 1)).map
          (fun i => (EmailService.construct 2 noOptions 1000).config.baseDelay * 2 ^ i)).sum ∧
      (send (EmailService.construct 2 singleAttemptOptions 1000) fallbackEmail 1000 1000
        failingPool).outcome =
        Outcome.returned (SendResult.failed "All email providers failed") ∧
      (suspensionsOf (send (EmailService.construct 2 singleAttemptOptions 1000) fallbackEmail
        1000 1000 failingPool).trace).sum = 1000 := by
  decide

/-- C10 as amended: over providers that all reject, when `send` returns
`failed` it has made `maxRetries = K` attempts and has suspended after each of
them, the last one included: the suspensions are `baseDelay * 2^i` for `i`
from 0 to `K - 1`, in that order, and their total is `baseDelay * (2^K - 1)`. -/
theorem exhaustion_total_backoff (svc : EmailService) (email : Email) (idClock rateClock : Nat)
    (oracle : Oracle) (message : String) (hpool : 1 ≤ svc.poolSize)
    (hK : 1 ≤ svc.config.maxRetries)
    (hfails : ∀ attempt position msg, oracle attempt position msg = none)
    (hfailed : (send svc email idClock rateClock oracle).outcome =
      Outcome.returned (SendResult.failed message)) :
    suspensionsOf (send svc email idClock rateClock oracle).trace =
        (List.range svc.config.maxRetries).map (fun i => svc.config.baseDelay * 2 ^ i) ∧
      (suspensionsOf (send svc email idClock rateClock oracle).trace).sum =
        svc.config.baseDelay * (2 ^ svc.config.maxRetries - 1) ∧
      (attemptsOf (send svc email idClock rateClock oracle).trace).length =
        svc.config.maxRetries := by
  have _ := hpool
  have _ := hK
  have hid : generateEmailId email idClock ∉ svc.sentEmails := by
    intro hmem
    rw [send_of_recorded svc email idClock rateClock oracle hmem] at hfailed
    cases hfailed
  have hrate : postResetCount svc rateClock < svc.config.rateLimitPerMinute := by
    by_contra hl
    rw [send_of_limit_reached svc email idClock rateClock oracle hid (Nat.not_lt.mp hl)]
      at hfailed
    cases hfailed
  have hp := serviceAfterChecks_poolSize svc (generateEmailId email idClock) rateClock
  have hcfg := serviceAfterChecks_config svc (generateEmailId email idClock) rateClock
  have hall : ∀ k, k < (serviceAfterChecks svc (generateEmailId email idClock)
      rateClock).config.maxRetries →
      attemptResult (serviceAfterChecks svc (generateEmailId email idClock) rateClock)
        oracle email k = none := by
    intro k _
    simp [attemptResult, callProvider, hfails]
  have hsusp : suspensionsOf (send svc email idClock rateClock oracle).trace =
      (List.range svc.config.maxRetries).map (fun i => svc.config.baseDelay * 2 ^ i) := by
    rw [send_of_accepted svc email idClock rateClock oracle hid hrate,
      sendWithRetry_all_fail _ email oracle hall]
    simp only [suspensionsOf_failedEvents, hcfg, Nat.zero_add]
  have hatt : (attemptsOf (send svc email idClock rateClock oracle).trace).length =
      svc.config.maxRetries := by
    rw [send_of_accepted svc email idClock rateClock oracle hid hrate,
      sendWithRetry_all_fail _ email oracle hall]
    simp only [attemptsOf_failedEvents, hcfg, List.length_map, List.length_range]
  exact ⟨hsusp, by rw [hsusp, sum_backoff], hatt⟩

/-- Witness for C10 as amended: the default configuration over providers that
all reject. -/
theorem exhaustion_total_backoff_witness :
    suspensionsOf (send (EmailService.construct 2 noOptions 1000) fallbackEmail 1000 1000
        failingPool).trace =
        (List.range (EmailService.construct 2 noOptions 1000).config.maxRetries).map
          (fun i => (EmailService.construct 2 noOptions 1000).config.baseDelay * 2 ^ i) ∧
      (suspensionsOf (send (EmailService.construct 2 noOptions 1000) fallbackEmail 1000 1000
        failingPool).trace).sum =
        (EmailService.construct 2 noOptions 1000).config.baseDelay *
          (2 ^ (EmailService.construct 2 noOptions 1000).config.maxRetries - 1) ∧
      (attemptsOf (send (EmailService.construct 2 noOptions 1000) fallbackEmail 1000 1000
        failingPool).trace).length = (EmailService.construct 2 noOptions 1000).config.maxRetries :=
  exhaustion_total_backoff (EmailService.construct 2 noOptions 1000) fallbackEmail 1000 1000
    failingPool "All email providers failed" (by decide) (by decide) (fun _ _ _ => rfl)
    (by decide)

/-! ## The backoff schedule -/

theorem failedEvents_length (n base : Nat) :
    ∀ (k c a : Nat), (failedEvents n base c a k).length = 2 * k
  | 0, _, _ => rfl
  | k + 1, c, a => by
    simp only [failedEvents, List.length_cons, failedEvents_length n base k]
    omega

theorem failedEvents_getElem (n base : Nat) :
    ∀ (k c a i : Nat), i < k →
      (failedEvents n base c a k)[2 * i]? = some (Event.attempt (cursorAt n c i)) ∧
        (failedEvents n base c a k)[2 * i + 1]? = some (Event.suspend (base * 2 ^ (a + i)))
  | 0, _, _, _, h => absurd h (Nat.not_lt_zero _)
  | k + 1, c, a, 0, _ => by
    simp [failedEvents, cursorAt]
  | k + 1, c, a, i + 1, h => by
    have ih := failedEvents_getElem n base k ((c + 1) % n) (a + 1) i (Nat.lt_of_succ_lt_succ h)
    have h2 : 2 * (i + 1) = 2 * i + 1 + 1 := by omega
    rw [h2]
    simp only [failedEvents, List.getElem?_cons_succ]
    rw [cursorAt_shift, ih.1, ih.2]
    have h4 : a + 1 + i = a + (i + 1) := by omega
    rw [h4]
    exact ⟨rfl, rfl⟩

/-- An accepted call leaves the service and the trace of its retry sequence. -/
theorem send_accepted_run (svc : EmailService) (email : Email) (idClock rateClock : Nat)
    (oracle : Oracle) (hid : generateEmailId email idClock ∉ svc.sentEmails)
    (hrate : postResetCount svc rateClock < svc.config.rateLimitPerMinute) :
    (send svc email idClock rateClock oracle).service =
        (sendWithRetry (serviceAfterChecks svc (generateEmailId email idClock) rateClock)
          email oracle).service ∧
      (send svc email idClock rateClock oracle).trace =
        (sendWithRetry (serviceAfterChecks svc (generateEmailId email idClock) rateClock)
          email oracle).trace := by
  rw [send_of_accepted svc email idClock rateClock oracle hid hrate]
  generalize sendWithRetry _ email oracle = run
  obtain ⟨result, svc3, tr⟩ := run
  cases result <;> exact ⟨rfl, rfl⟩

/-- A call that is not accepted makes no attempt and does not suspend. -/
theorem send_rejected_trace (svc : EmailService) (email : Email) (idClock rateClock : Nat)
    (oracle : Oracle)
    (h : generateEmailId email idClock ∈ svc.sentEmails ∨
      svc.config.rateLimitPerMinute ≤ postResetCount svc rateClock) :
    (send svc email idClock rateClock oracle).trace = [] := by
  by_cases hid : generateEmailId email idClock ∈ svc.sentEmails
  · rw [send_of_recorded svc email idClock rateClock oracle hid]
  · rcases h with h | h
    · exact absurd h hid
    · rw [send_of_limit_reached svc email idClock rateClock oracle hid h]

/-- The trace of a retry sequence: failed attempts, each followed by its
backoff, and then at most one successful attempt. -/
theorem sendWithRetry_trace (svc : EmailService) (email : Email) (oracle : Oracle) :
    ∃ k, k ≤ svc.config.maxRetries ∧
      ((sendWithRetry svc email oracle).trace =
          failedEvents svc.poolSize svc.config.baseDelay svc.currentProviderIndex 0 k ∨
        (sendWithRetry svc email oracle).trace =
          failedEvents svc.poolSize svc.config.baseDelay svc.currentProviderIndex 0 k ++
            [Event.attempt (cursorAt svc.poolSize svc.currentProviderIndex k)]) ∧
      (sendWithRetry svc email oracle).service.currentProviderIndex =
        cursorAt svc.poolSize svc.currentProviderIndex k := by
  rcases sendWithRetry_cases svc email oracle with ⟨j, receipt, hj, hfail, hok⟩ | hfail
  · refine ⟨j, Nat.le_of_lt hj, Or.inr ?_, ?_⟩ <;>
      rw [sendWithRetry_first_success svc email oracle j receipt hj hfail hok]
  · refine ⟨svc.config.maxRetries, le_refl _, Or.inl ?_, ?_⟩ <;>
      rw [sendWithRetry_all_fail svc email oracle hfail]

/-- C11: in every call of `send`, whatever the providers do, the event that
follows the failed attempt number `i` (the event at place `2 * i + 1` of the
trace, right after the attempt at place `2 * i`) is a suspension of exactly
`baseDelay * 2^i`; and an accepted `send` whose first success is at attempt
`j` has suspended `j` times, for `baseDelay * (2^j - 1)` in total. -/
theorem backoff_schedule (svc : EmailService) (email : Email) (idClock rateClock : Nat)
    (oracle : Oracle) :
    (∀ i, 2 * i + 1 < (send svc email idClock rateClock oracle).trace.length →
      (∃ position, (send svc email idClock rateClock oracle).trace[2 * i]? =
          some (Event.attempt position)) ∧
        (send svc email idClock rateClock oracle).trace[2 * i + 1]? =
          some (Event.suspend (svc.config.baseDelay * 2 ^ i))) ∧
    (1 ≤ svc.poolSize → svc.currentProviderIndex < svc.poolSize →
      generateEmailId email idClock ∉ svc.sentEmails →
      postResetCount svc rateClock < svc.config.rateLimitPerMinute →
      ∀ j receipt, j < svc.config.maxRetries →
        (∀ i, i < j →
          oracle i ((svc.currentProviderIndex + i) % svc.poolSize) email = none) →
        oracle j ((svc.currentProviderIndex + j) % svc.poolSize) email = some receipt →
        suspensionsOf (send svc email idClock rateClock oracle).trace =
            (List.range j).map (fun i => svc.config.baseDelay * 2 ^ i) ∧
          (suspensionsOf (send svc email idClock rateClock oracle).trace).sum =
            svc.config.baseDelay * (2 ^ j - 1)) := by
  have hp := serviceAfterChecks_poolSize svc (generateEmailId email idClock) rateClock
  have hcur := serviceAfterChecks_cursor svc (generateEmailId email idClock) rateClock
  have hcfg := serviceAfterChecks_config svc (generateEmailId email idClock) rateClock
  constructor
  · intro i hi
    by_cases hacc : generateEmailId email idClock ∈ svc.sentEmails ∨
        svc.config.rateLimitPerMinute ≤ postResetCount svc rateClock
    · rw [send_rejected_trace svc email idClock rateClock oracle hacc] at hi
      exact absurd hi (Nat.not_lt_zero _)
    · rw [not_or, Nat.not_le] at hacc
      have htrace := (send_accepted_run svc email idClock rateClock oracle hacc.1 hacc.2).2
      rw [htrace] at hi ⊢
      obtain ⟨k, -, hshape, -⟩ := sendWithRetry_trace
        (serviceAfterChecks svc (generateEmailId email idClock) rateClock) email oracle
      rw [hcfg] at hshape
      rcases hshape with hshape | hshape
      · rw [hshape] at hi ⊢
        rw [failedEvents_length] at hi
        have hik : i < k := by omega
        have hget := failedEvents_getElem
          (serviceAfterChecks svc (generateEmailId email idClock) rateClock).poolSize
          svc.config.baseDelay k
          (serviceAfterChecks svc (generateEmailId email idClock) rateClock).currentProviderIndex
          0 i hik
        rw [Nat.zero_add] at hget
        exact ⟨⟨_, hget.1⟩, hget.2⟩
      · rw [hshape] at hi ⊢
        rw [List.length_append, failedEvents_length, List.length_singleton] at hi
        have hik : i < k := by omega
        have hget := failedEvents_getElem
          (serviceAfterChecks svc (generateEmailId email idClock) rateClock).poolSize
          svc.config.baseDelay k
          (serviceAfterChecks svc (generateEmailId email idClock) rateClock).currentProviderIndex
          0 i hik
        rw [Nat.zero_add] at hget
        rw [List.getElem?_append_left (by rw [failedEvents_length]; omega),
          List.getElem?_append_left (by rw [failedEvents_length]; omega)]
        exact ⟨⟨_, hget.1⟩, hget.2⟩
  · intro hn hc hid hrate j receipt hj hfail hok
    have hres : ∀ i, attemptResult
        (serviceAfterChecks svc (generateEmailId email idClock) rateClock) oracle email i =
        oracle i ((svc.currentProviderIndex + i) % svc.poolSize) email := by
      intro i
      rw [attemptResult_eq_oracle _ oracle email (by rw [hp]; exact hn)
        (by rw [hcur, hp]; exact hc) i, hcur, hp]
    have hsusp : suspensionsOf (send svc email idClock rateClock oracle).trace =
        (List.range j).map (fun i => svc.config.baseDelay * 2 ^ i) := by
      rw [(send_accepted_run svc email idClock rateClock oracle hid hrate).2,
        sendWithRetry_first_success _ email oracle j receipt (by rw [hcfg]; exact hj)
          (fun k hk => (hres k).trans (hfail k hk)) ((hres j).trans hok)]
      simp only [suspensionsOf_append, suspensionsOf_failedEvents, hcfg, Nat.zero_add,
        suspensionsOf, List.append_nil]
    exact ⟨hsusp, by rw [hsusp, sum_backoff]⟩

/-- Witness for C11: the fallback pool behind a service with `baseDelay = 500`,
where the first success is attempt 1. -/
theorem backoff_schedule_witness :
    suspensionsOf (send (EmailService.construct 2 fallbackOptions 1000) fallbackEmail 1000 1000
        fallbackPool).trace = (List.range 1).map (fun i => 500 * 2 ^ i) ∧
      (suspensionsOf (send (EmailService.construct 2 fallbackOptions 1000) fallbackEmail 1000
        1000 fallbackPool).trace).sum = 500 * (2 ^ 1 - 1) :=
  (backoff_schedule (EmailService.construct 2 fallbackOptions 1000) fallbackEmail 1000 1000
    fallbackPool).2 (by decide) (by decide) (by decide) (by decide) 1
    { messageId := "WorkingProvider-1", providerName := "WorkingProvider" } (by decide)
    (fun i hi => by
      obtain rfl : i = 0 := Nat.lt_one_iff.mp hi
      rfl)
    rfl

/-! ## Invariants of the reachable states -/

theorem send_frame (svc : EmailService) (email : Email) (idClock rateClock : Nat)
    (oracle : Oracle) :
    (send svc email idClock rateClock oracle).service.poolSize = svc.poolSize ∧
      (send svc email idClock rateClock oracle).service.config = svc.config := by
  by_cases hid : generateEmailId email idClock ∈ svc.sentEmails
  · rw [send_of_recorded svc email idClock rateClock oracle hid]
    exact ⟨rfl, rfl⟩
  · by_cases hl : svc.config.rateLimitPerMinute ≤ postResetCount svc rateClock
    · rw [send_of_limit_reached svc email idClock rateClock oracle hid hl]
      exact ⟨(checkRateLimit_frame _ rateClock).1, (checkRateLimit_frame _ rateClock).2.2.1⟩
    · have h := (send_accepted_service svc email idClock rateClock oracle hid
        (Nat.not_le.mp hl)).2
      have h1 := congrArg EmailService.poolSize h
      have h2 := congrArg EmailService.config h
      exact ⟨h1, h2⟩

theorem checkRateLimit_count_le (svc : EmailService) (now : Nat)
    (h : svc.emailsSentInCurrentMinute ≤ svc.config.rateLimitPerMinute) :
    (checkRateLimit svc now).2.emailsSentInCurrentMinute ≤ svc.config.rateLimitPerMinute := by
  by_cases hl : svc.config.rateLimitPerMinute ≤ postResetCount svc now
  · by_cases hr : (now : Int) - (svc.lastResetTime : Int) ≥ 60000
    · have h0 : svc.config.rateLimitPerMinute = 0 := by
        simp only [postResetCount, hr, if_true] at hl
        omega
      simp [checkRateLimit, hr, h0]
    · have hc : svc.config.rateLimitPerMinute ≤ svc.emailsSentInCurrentMinute := by
        simpa [postResetCount, hr] using hl
      simp only [checkRateLimit, hr, if_false, ge_iff_le, hc, if_true]
      exact h
  · rw [checkRateLimit_of_below svc now (Nat.not_le.mp hl)]
    exact Nat.not_le.mp hl

theorem send_count_le (svc : EmailService) (email : Email) (idClock rateClock : Nat)
    (oracle : Oracle)
    (h : svc.emailsSentInCurrentMinute ≤ svc.config.rateLimitPerMinute) :
    (send svc email idClock rateClock oracle).service.emailsSentInCurrentMinute ≤
      svc.config.rateLimitPerMinute := by
  by_cases hid : generateEmailId email idClock ∈ svc.sentEmails
  · rw [send_of_recorded svc email idClock rateClock oracle hid]
    exact h
  · by_cases hl : svc.config.rateLimitPerMinute ≤ postResetCount svc rateClock
    · rw [send_of_limit_reached svc email idClock rateClock oracle hid hl]
      exact checkRateLimit_count_le
        { svc with sentEmails := svc.sentEmails ++ [generateEmailId email idClock] } rateClock h
    · have hs := congrArg EmailService.emailsSentInCurrentMinute
        (send_accepted_service svc email idClock rateClock oracle hid (Nat.not_le.mp hl)).2
      rw [hs]
      exact Nat.not_le.mp hl

theorem sendAll_count_le :
    ∀ (calls : List Call) (svc : EmailService),
      svc.emailsSentInCurrentMinute ≤ svc.config.rateLimitPerMinute →
      (sendAll svc calls).2.emailsSentInCurrentMinute ≤ svc.config.rateLimitPerMinute ∧
        (sendAll svc calls).2.config = svc.config
  | [], _, h => ⟨h, rfl⟩
  | c :: rest, svc, h => by
    have hcfg := (send_frame svc c.email c.idClock c.rateClock c.oracle).2
    have hstep := send_count_le svc c.email c.idClock c.rateClock c.oracle h
    have ih := sendAll_count_le rest (c.run svc).service (by
      show (send svc c.email c.idClock c.rateClock c.oracle).service.emailsSentInCurrentMinute ≤
        (send svc c.email c.idClock c.rateClock c.oracle).service.config.rateLimitPerMinute
      rw [hcfg]
      exact hstep)
    have hcfg2 : (c.run svc).service.config = svc.config := hcfg
    rw [hcfg2] at ih
    exact ih

/-- C12: on a service constructed with a positive `rateLimitPerMinute = L`,
after every sequence of calls of `send` (accepted, rejected as duplicate,
rate-limited, delivered or failed; whatever the clock readings, non-decreasing
or not) the count satisfies `0 ≤ emailsSentInCurrentMinute ≤ L`, and the
configured limit is still `L`. -/
theorem count_within_limit (L poolSize t0 : Nat) (options : Options) (calls : List Call)
    (hL : 1 ≤ L) (hopt : options.rateLimitPerMinute = some L) :
    0 ≤ (sendAll (EmailService.construct poolSize options t0) calls).2.emailsSentInCurrentMinute ∧
      (sendAll (EmailService.construct poolSize options t0) calls).2.emailsSentInCurrentMinute ≤
        L ∧
      (sendAll (EmailService.construct poolSize options t0)
        calls).2.config.rateLimitPerMinute = L := by
  have hlimit := construct_rateLimit poolSize t0 L options hL hopt
  have h := sendAll_count_le calls (EmailService.construct poolSize options t0)
    (by simp [EmailService.construct])
  rw [h.2, hlimit]
  rw [hlimit] at h
  exact ⟨Nat.zero_le _, h.1, rfl⟩

/-- Witness for C12: the three calls of the test "Rate Limiting" with the
limit 2. -/
theorem count_within_limit_witness :
    0 ≤ (sendAll (EmailService.construct 1 rateLimitOptions 1000)
        rateLimitCalls).2.emailsSentInCurrentMinute ∧
      (sendAll (EmailService.construct 1 rateLimitOptions 1000)
        rateLimitCalls).2.emailsSentInCurrentMinute ≤ 2 ∧
      (sendAll (EmailService.construct 1 rateLimitOptions 1000)
        rateLimitCalls).2.config.rateLimitPerMinute = 2 :=
  count_within_limit 2 1 1000 rateLimitOptions rateLimitCalls (by decide) rfl

theorem sendWithRetry_cursor_lt (svc : EmailService) (email : Email) (oracle : Oracle)
    (hn : 1 ≤ svc.poolSize) (hc : svc.currentProviderIndex < svc.poolSize) :
    (sendWithRetry svc email oracle).service.currentProviderIndex < svc.poolSize := by
  obtain ⟨k, -, -, hcursor⟩ := sendWithRetry_trace svc email oracle
  rw [hcursor]
  exact cursorAt_lt _ _ hn hc k

theorem send_cursor_lt (svc : EmailService) (email : Email) (idClock rateClock : Nat)
    (oracle : Oracle) (hn : 1 ≤ svc.poolSize) (hc : svc.currentProviderIndex < svc.poolSize) :
    (send svc email idClock rateClock oracle).service.currentProviderIndex < svc.poolSize := by
  by_cases hid : generateEmailId email idClock ∈ svc.sentEmails
  · rw [send_of_recorded svc email idClock rateClock oracle hid]
    exact hc
  · by_cases hl : svc.config.rateLimitPerMinute ≤ postResetCount svc rateClock
    · rw [send_of_limit_reached svc email idClock rateClock oracle hid hl,
        (checkRateLimit_frame _ rateClock).2.1]
      exact hc
    · have hp := serviceAfterChecks_poolSize svc (generateEmailId email idClock) rateClock
      have hcur := serviceAfterChecks_cursor svc (generateEmailId email idClock) rateClock
      rw [(send_accepted_run svc email idClock rateClock oracle hid (Nat.not_le.mp hl)).1]
      have := sendWithRetry_cursor_lt
        (serviceAfterChecks svc (generateEmailId email idClock) rateClock) email oracle
        (by rw [hp]; exact hn) (by rw [hcur, hp]; exact hc)
      rw [hp] at this
      exact this

theorem sendAll_cursor_lt :
    ∀ (calls : List Call) (svc : EmailService),
      1 ≤ svc.poolSize → svc.currentProviderIndex < svc.poolSize →
      (sendAll svc calls).2.currentProviderIndex < svc.poolSize ∧
        (sendAll svc calls).2.poolSize = svc.poolSize
  | [], _, _, hc => ⟨hc, rfl⟩
  | c :: rest, svc, hn, hc => by
    have hp : (c.run svc).service.poolSize = svc.poolSize :=
      (send_frame svc c.email c.idClock c.rateClock c.oracle).1
    have hstep : (c.run svc).service.currentProviderIndex < svc.poolSize :=
      send_cursor_lt svc c.email c.idClock c.rateClock c.oracle hn hc
    have ih := sendAll_cursor_lt rest (c.run svc).service (by rw [hp]; exact hn)
      (by rw [hp]; exact hstep)
    rw [hp] at ih
    exact ih

/-- C13: on a pool of `n ≥ 1` providers, from a cursor `c0 < n`, a retry
sequence leaves `currentProviderIndex` at `(c0 + f) mod n`, where `f` is the
number of attempts that failed (each of them is followed by one suspension):
`f = j` when the first success is attempt `j`, and `f = maxRetries` when every
attempt fails, the last permitted attempt included.  Hence in every state
reachable from construction over a non-empty pool the cursor is a valid index
into the pool. -/
theorem cursor_rotation :
    (∀ (svc : EmailService) (email : Email) (oracle : Oracle),
      1 ≤ svc.poolSize → svc.currentProviderIndex < svc.poolSize →
      (∀ j receipt, j < svc.config.maxRetries →
        (∀ i, i < j →
          oracle i ((svc.currentProviderIndex + i) % svc.poolSize) email = none) →
        oracle j ((svc.currentProviderIndex + j) % svc.poolSize) email = some receipt →
        (sendWithRetry svc email oracle).service.currentProviderIndex =
          (svc.currentProviderIndex + j) % svc.poolSize) ∧
      ((∀ i, i < svc.config.maxRetries →
          oracle i ((svc.currentProviderIndex + i) % svc.poolSize) email = none) →
        (sendWithRetry svc email oracle).service.currentProviderIndex =
          (svc.currentProviderIndex + svc.config.maxRetries) % svc.poolSize) ∧
      (sendWithRetry svc email oracle).service.currentProviderIndex =
        (svc.currentProviderIndex + (suspensionsOf (sendWithRetry svc email oracle).trace).length) %
          svc.poolSize) ∧
    (∀ (poolSize t0 : Nat) (options : Options) (calls : List Call), 1 ≤ poolSize →
      (sendAll (EmailService.construct poolSize options t0) calls).2.currentProviderIndex <
          poolSize ∧
        (sendAll (EmailService.construct poolSize options t0) calls).2.poolSize = poolSize) := by
  constructor
  · intro svc email oracle hn hc
    have hres := attemptResult_eq_oracle svc oracle email hn hc
    refine ⟨?_, ?_, ?_⟩
    · intro j receipt hj hfail hok
      rw [sendWithRetry_first_success svc email oracle j receipt hj
        (fun k hk => (hres k).trans (hfail k hk)) ((hres j).trans hok)]
      exact cursorAt_eq_mod _ _ hc j
    · intro hfail
      rw [sendWithRetry_all_fail svc email oracle (fun k hk => (hres k).trans (hfail k hk))]
      exact cursorAt_eq_mod _ _ hc _
    · obtain ⟨k, -, hshape, hcursor⟩ := sendWithRetry_trace svc email oracle
      rw [hcursor, cursorAt_eq_mod _ _ hc k]
      rcases hshape with hshape | hshape <;> rw [hshape]
      · simp [suspensionsOf_failedEvents]
      · simp [suspensionsOf_append, suspensionsOf_failedEvents, suspensionsOf]
  · intro poolSize t0 options calls hn
    exact sendAll_cursor_lt calls (EmailService.construct poolSize options t0) hn hn

/-- Witness for C13: the default service over two providers that all reject:
three failed attempts move the cursor from 0 to `(0 + 3) mod 2 = 1`. -/
theorem cursor_rotation_witness :
    (sendWithRetry (EmailService.construct 2 noOptions 1000) fallbackEmail
        failingPool).service.currentProviderIndex = (0 + 3) % 2 ∧
      (sendAll (EmailService.construct 1 rateLimitOptions 1000)
        rateLimitCalls).2.currentProviderIndex < 1 :=
  ⟨(cursor_rotation.1 (EmailService.construct 2 noOptions 1000) fallbackEmail failingPool
      (by decide) (by decide)).2.1 (fun _ _ => rfl),
    (cursor_rotation.2 1 1000 rateLimitOptions rateLimitCalls (by decide)).1⟩

/-! ## Bursts at a window boundary -/

theorem checkRateLimit_reset_due (svc : EmailService) (now : Nat)
    (hL : 1 ≤ svc.config.rateLimitPerMinute)
    (hr : (now : Int) - (svc.lastResetTime : Int) ≥ 60000) :
    checkRateLimit svc now =
      (Except.ok (), { svc with emailsSentInCurrentMinute := 1, lastResetTime := now }) := by
  have hl : ¬ (0 ≥ svc.config.rateLimitPerMinute) := by omega
  simp [checkRateLimit, hr, hl]

theorem checkRateLimit_full (svc : EmailService) (now : Nat)
    (hr : ¬ ((now : Int) - (svc.lastResetTime : Int) ≥ 60000))
    (hl : svc.config.rateLimitPerMinute ≤ svc.emailsSentInCurrentMinute) :
    checkRateLimit svc now = (Except.error "Rate limit exceeded", svc) := by
  simp [checkRateLimit, hr, hl]

theorem checkRateLimit_counted (svc : EmailService) (now : Nat)
    (hr : ¬ ((now : Int) - (svc.lastResetTime : Int) ≥ 60000))
    (hl : svc.emailsSentInCurrentMinute < svc.config.rateLimitPerMinute) :
    checkRateLimit svc now =
      (Except.ok (), { svc with
        emailsSentInCurrentMinute := svc.emailsSentInCurrentMinute + 1 }) := by
  have hl2 : ¬ (svc.emailsSentInCurrentMinute ≥ svc.config.rateLimitPerMinute) := by omega
  simp [checkRateLimit, hr, hl2]

theorem checkAll_append (svc : EmailService) (xs ys : List Nat) :
    checkAll svc (xs ++ ys) =
      ((checkAll svc xs).1 ++ (checkAll (checkAll svc xs).2 ys).1,
        (checkAll (checkAll svc xs).2 ys).2) := by
  induction xs generalizing svc with
  | nil => rfl
  | cons c xs ih =>
    rw [List.cons_append]
    simp only [checkAll]
    rw [ih]
    rfl

/-- Without a reset, at most what is left of the budget succeeds. -/
theorem checkAll_no_reset_le :
    ∀ (clocks : List Nat) (svc : EmailService),
      (∀ t ∈ clocks, (t : Int) - (svc.lastResetTime : Int) < 60000) →
      (checkAll svc clocks).1.count true ≤
        svc.config.rateLimitPerMinute - svc.emailsSentInCurrentMinute
  | [], _, _ => Nat.zero_le _
  | t :: later, svc, h => by
    have hr : ¬ ((t : Int) - (svc.lastResetTime : Int) ≥ 60000) := by
      have := h t (List.mem_cons_self _ _)
      omega
    by_cases hl : svc.config.rateLimitPerMinute ≤ svc.emailsSentInCurrentMinute
    · have ih := checkAll_no_reset_le later svc (fun u hu => h u (List.mem_cons_of_mem _ hu))
      simp only [checkAll, checkRateLimit_full svc t hr hl, Except.toBool]
      simpa using ih
    · have ih := checkAll_no_reset_le later
        { svc with emailsSentInCurrentMinute := svc.emailsSentInCurrentMinute + 1 }
        (fun u hu => h u (List.mem_cons_of_mem _ hu))
      simp only [checkAll, checkRateLimit_counted svc t hr (Nat.not_le.mp hl), Except.toBool,
        List.count_cons_self]
      simp only at ih
      omega

/-- Readings that all lie in one span shorter than the window see at most one
reset: at most the rest of the old budget and one full new budget succeed. -/
theorem checkAll_span_le (lo : Nat) :
    ∀ (clocks : List Nat) (svc : EmailService),
      1 ≤ svc.config.rateLimitPerMinute →
      (∀ t ∈ clocks, lo ≤ t ∧ t < lo + 60000) →
      (checkAll svc clocks).1.count true ≤
        (svc.config.rateLimitPerMinute - svc.emailsSentInCurrentMinute) +
          svc.config.rateLimitPerMinute
  | [], _, _, _ => Nat.zero_le _
  | t :: later, svc, hL, h => by
    have ht := h t (List.mem_cons_self _ _)
    by_cases hr : (t : Int) - (svc.lastResetTime : Int) ≥ 60000
    · have hrest := checkAll_no_reset_le later
        { svc with emailsSentInCurrentMinute := 1, lastResetTime := t }
        (by
          intro u hu
          have := h u (List.mem_cons_of_mem _ hu)
          simp only
          omega)
      simp only [checkAll, checkRateLimit_reset_due svc t hL hr, Except.toBool,
        List.count_cons_self]
      simp only at hrest
      omega
    · by_cases hl : svc.config.rateLimitPerMinute ≤ svc.emailsSentInCurrentMinute
      · have ih := checkAll_span_le lo later svc hL
          (fun u hu => h u (List.mem_cons_of_mem _ hu))
        simp only [checkAll, checkRateLimit_full svc t hr hl, Except.toBool]
        simpa using ih
      · have ih := checkAll_span_le lo later
          { svc with emailsSentInCurrentMinute := svc.emailsSentInCurrentMinute + 1 } hL
          (fun u hu => h u (List.mem_cons_of_mem _ hu))
        simp only [checkAll, checkRateLimit_counted svc t hr (Nat.not_le.mp hl), Except.toBool,
          List.count_cons_self]
        simp only at ih
        omega

/-- Inside the budget and without a reset every call succeeds. -/
theorem checkAll_replicate (t : Nat) :
    ∀ (k : Nat) (svc : EmailService),
      ¬ ((t : Int) - (svc.lastResetTime : Int) ≥ 60000) →
      svc.emailsSentInCurrentMinute + k ≤ svc.config.rateLimitPerMinute →
      checkAll svc (List.replicate k t) =
        (List.replicate k true,
          { svc with emailsSentInCurrentMinute := svc.emailsSentInCurrentMinute + k })
  | 0, _, _, _ => rfl
  | k + 1, svc, hr, hb => by
    have ih := checkAll_replicate t k
      { svc with emailsSentInCurrentMinute := svc.emailsSentInCurrentMinute + 1 } hr
      (by simp only; omega)
    simp only [List.replicate_succ, checkAll, checkRateLimit_counted svc t hr (by omega),
      Except.toBool, ih, Nat.add_assoc, Nat.add_comm 1 k]

theorem checkAll_config :
    ∀ (clocks : List Nat) (svc : EmailService), (checkAll svc clocks).2.config = svc.config
  | [], _ => rfl
  | t :: later, svc => by
    simp only [checkAll]
    rw [checkAll_config later, (checkRateLimit_frame svc t).2.2.1]

theorem burstClocks_sorted (N : Nat) : (burstClocks N).Pairwise (fun a b => a ≤ b) := by
  unfold burstClocks
  rw [List.pairwise_append]
  refine ⟨by simp, by simp, ?_⟩
  intro a ha b hb
  rw [(List.mem_replicate.mp ha).2, (List.mem_replicate.mp hb).2]
  decide

theorem burstClocks_span (N : Nat) (first last : Nat)
    (hfirst : (burstClocks N).head? = some first)
    (hlast : (burstClocks N).getLast? = some last) : last < first + 60000 := by
  have hmem : ∀ t ∈ burstClocks N, 59999 ≤ t ∧ t ≤ 60000 := by
    intro t ht
    unfold burstClocks at ht
    rcases List.mem_append.mp ht with h | h
    · rw [(List.mem_replicate.mp h).2]
      decide
    · rw [(List.mem_replicate.mp h).2]
      decide
  obtain ⟨zs, hzs⟩ := List.head?_eq_some_iff.mp hfirst
  obtain ⟨ys, hys⟩ := List.getLast?_eq_some_iff.mp hlast
  have h1 := hmem first (by rw [hzs]; exact List.mem_cons_self _ _)
  have h2 := hmem last (by rw [hys]; simp)
  omega

theorem burstClocks_successes (N : Nat) (hN : 1 ≤ N) :
    (checkAll (EmailService.construct 1 (limitOptions N) 0) (burstClocks N)).1.count true =
      2 * N := by
  have hlimit := construct_rateLimit 1 0 N (limitOptions N) hN rfl
  obtain ⟨m, rfl⟩ : ∃ m, N = m + 1 := ⟨N - 1, by omega⟩
  have hphase1 := checkAll_replicate 59999 (m + 1) (EmailService.construct 1 (limitOptions (m + 1)) 0)
    (by simp [EmailService.construct]) (by rw [hlimit]; simp [EmailService.construct])
  have hphase2 := checkAll_replicate 60000 m
    { EmailService.construct 1 (limitOptions (m + 1)) 0 with
      emailsSentInCurrentMinute := 1, lastResetTime := 60000 }
    (by simp) (by
      show 1 + m ≤ (EmailService.construct 1 (limitOptions (m + 1)) 0).config.rateLimitPerMinute
      rw [hlimit]
      omega)
  unfold burstClocks
  rw [checkAll_append, hphase1]
  simp only [List.replicate_succ (60000 : Nat) m, checkAll]
  rw [checkRateLimit_reset_due _ 60000 (by
      show 1 ≤ (EmailService.construct 1 (limitOptions (m + 1)) 0).config.rateLimitPerMinute
      rw [hlimit]
      omega)
    (by simp [EmailService.construct])]
  simp only [Except.toBool]
  simp only [hphase2]
  simp
  omega

/-- C14: with a limit `N ≥ 1`, in every sequence of calls of `_checkRateLimit`
at non-decreasing clock readings, from any service, the calls of any span
whose first and last readings differ by less than 60000 ms succeed at most
`2 * N` times; and the bound is attained: on a service constructed at clock 0,
of `N` calls at 59999 followed by `N` calls at 60000 (a span of one
millisecond that straddles the reset) all `2 * N` succeed. -/
theorem burst_bound :
    (∀ (svc : EmailService) (before span after : List Nat) (first last : Nat),
      1 ≤ svc.config.rateLimitPerMinute →
      (before ++ span ++ after).Pairwise (fun a b => a ≤ b) →
      span.head? = some first → span.getLast? = some last → last < first + 60000 →
      (checkAll (checkAll svc before).2 span).1.count true ≤
        2 * svc.config.rateLimitPerMinute) ∧
    (∀ N, 1 ≤ N →
      (EmailService.construct 1 (limitOptions N) 0).config.rateLimitPerMinute = N ∧
      (burstClocks N).Pairwise (fun a b => a ≤ b) ∧
      (∀ first last, (burstClocks N).head? = some first →
        (burstClocks N).getLast? = some last → last < first + 60000) ∧
      (checkAll (EmailService.construct 1 (limitOptions N) 0) (burstClocks N)).1.count true =
        2 * N) := by
  constructor
  · intro svc before span after first last hL hsorted hfirst hlast hspan
    have hspanSorted : span.Pairwise (fun a b => a ≤ b) :=
      (List.pairwise_append.mp (List.pairwise_append.mp hsorted).1).2.1
    obtain ⟨zs, hzs⟩ := List.head?_eq_some_iff.mp hfirst
    obtain ⟨ys, hys⟩ := List.getLast?_eq_some_iff.mp hlast
    have hlow : ∀ t ∈ span, first ≤ t := by
      intro t ht
      rw [hzs] at ht hspanSorted
      rcases List.mem_cons.mp ht with rfl | ht
      · exact le_refl _
      · exact (List.pairwise_cons.mp hspanSorted).1 t ht
    have hhigh : ∀ t ∈ span, t ≤ last := by
      intro t ht
      rw [hys] at ht hspanSorted
      rcases List.mem_append.mp ht with ht | ht
      · exact (List.pairwise_append.mp hspanSorted).2.2 t ht last (by simp)
      · rw [List.mem_singleton.mp ht]
    have hcfg := checkAll_config before svc
    have hbound := checkAll_span_le first span (checkAll svc before).2 (by rw [hcfg]; exact hL)
      (fun t ht => ⟨hlow t ht, Nat.lt_of_le_of_lt (hhigh t ht) hspan⟩)
    rw [hcfg] at hbound
    omega
  · intro N hN
    exact ⟨construct_rateLimit 1 0 N (limitOptions N) hN rfl, burstClocks_sorted N,
      burstClocks_span N, burstClocks_successes N hN⟩

/-- Witness for C14: the limit 2; a span of three readings inside one minute
after two earlier calls, and the burst of four calls across the reset. -/
theorem burst_bound_witness :
    (checkAll (checkAll (EmailService.construct 1 (limitOptions 2) 0) [10, 20]).2
        [59999, 60000, 60001]).1.count true ≤
        2 * (EmailService.construct 1 (limitOptions 2) 0).config.rateLimitPerMinute ∧
      (checkAll (EmailService.construct 1 (limitOptions 2) 0) (burstClocks 2)).1.count true =
        2 * 2 :=
  ⟨burst_bound.1 (EmailService.construct 1 (limitOptions 2) 0) [10, 20] [59999, 60000, 60001]
      [130000] 59999 60001 (by decide) (by decide) rfl rfl (by decide),
    (burst_bound.2 2 (by decide)).2.2.2⟩

/-! ## The constructor -/

/-- C15 as the claim states it fails: with `baseDelay: 0` supplied the
constructor sets `config.baseDelay` to the default 1000, not to the supplied
value 0. -/
theorem zero_option_replaced :
    zeroDelayOptions.baseDelay = some 0 ∧
      (EmailService.construct 1 zeroDelayOptions 1000).config.baseDelay = 1000 ∧
      (EmailService.construct 1 zeroDelayOptions 1000).config.baseDelay ≠ 0 := by
  decide

/-- C15 as amended: the constructor sets each of `maxRetries`, `baseDelay`,
`rateLimitPerMinute` and `circuitBreakerThreshold` to the value supplied for
it when a value other than zero is supplied, and to its default (3, 1000, 10
and 3) when the option is absent or zero. -/
theorem construct_config (poolSize now : Nat) (options : Options) :
    (∀ v, options.maxRetries = some v → v ≠ 0 →
        (EmailService.construct poolSize options now).config.maxRetries = v) ∧
    (options.maxRetries = none ∨ options.maxRetries = some 0 →
        (EmailService.construct poolSize options now).config.maxRetries = 3) ∧
    (∀ v, options.baseDelay = some v → v ≠ 0 →
        (EmailService.construct poolSize options now).config.baseDelay = v) ∧
    (options.baseDelay = none ∨ options.baseDelay = some 0 →
        (EmailService.construct poolSize options now).config.baseDelay = 1000) ∧
    (∀ v, options.rateLimitPerMinute = some v → v ≠ 0 →
        (EmailService.construct poolSize options now).config.rateLimitPerMinute = v) ∧
    (options.rateLimitPerMinute = none ∨ options.rateLimitPerMinute = some 0 →
        (EmailService.construct poolSize options now).config.rateLimitPerMinute = 10) ∧
    (∀ v, options.circuitBreakerThreshold = some v → v ≠ 0 →
        (EmailService.construct poolSize options now).config.circuitBreakerThreshold = v) ∧
    (options.circuitBreakerThreshold = none ∨ options.circuitBreakerThreshold = some 0 →
        (EmailService.construct poolSize options now).config.circuitBreakerThreshold = 3) := by
  refine ⟨?_, ?_, ?_, ?_, ?_, ?_, ?_, ?_⟩
  · intro v hv hne
    simp [EmailService.construct, orDefault, hv, hne]
  · rintro (h | h) <;> simp [EmailService.construct, orDefault, h]
  · intro v hv hne
    simp [EmailService.construct, orDefault, hv, hne]
  · rintro (h | h) <;> simp [EmailService.construct, orDefault, h]
  · intro v hv hne
    simp [EmailService.construct, orDefault, hv, hne]
  · rintro (h | h) <;> simp [EmailService.construct, orDefault, h]
  · intro v hv hne
    simp [EmailService.construct, orDefault, hv, hne]
  · rintro (h | h) <;> simp [EmailService.construct, orDefault, h]

/-- Witness for C15 as amended: the options of the fallback scenario, which
supply `maxRetries: 3` and `baseDelay: 500` and leave the rest absent. -/
theorem construct_config_witness :
    (EmailService.construct 2 fallbackOptions 1000).config.baseDelay = 500 ∧
      (EmailService.construct 2 fallbackOptions 1000).config.rateLimitPerMinute = 10 :=
  ⟨(construct_config 2 1000 fallbackOptions).2.2.1 500 rfl (by decide),
    (construct_config 2 1000 fallbackOptions).2.2.2.2.2.1 (Or.inl rfl)⟩

/-! ## The window reset -/

/-- C16 as the claim states it fails: when exactly 60000 ms have elapsed, the
elapsed time does not exceed the window duration, yet `_checkRateLimit`
resets: the window restarts at `now` and the count starts again from zero. -/
theorem reset_at_exact_window :
    ¬ ((60000 : Int) - (fiveSentService.lastResetTime : Int) > 60000) ∧
      (checkRateLimit fiveSentService 60000).2.lastResetTime = 60000 ∧
      (checkRateLimit fiveSentService 60000).2.lastResetTime ≠ fiveSentService.lastResetTime ∧
      fiveSentService.emailsSentInCurrentMinute = 5 ∧
      (checkRateLimit fiveSentService 60000).2.emailsSentInCurrentMinute = 1 := by
  decide

/-- C16 as amended: `_checkRateLimit` resets the count to zero and restarts
the window at `now` exactly when the elapsed time `now - lastResetTime` is at
least 60000 ms; when it is less, the count is not reset and `lastResetTime` is
not changed.  In both cases the count left behind is the count after the
possible reset, plus one when the call succeeds. -/
theorem checkRateLimit_reset_rule (svc : EmailService) (now : Nat) :
    ((now : Int) - (svc.lastResetTime : Int) ≥ 60000 →
      (checkRateLimit svc now).2.lastResetTime = now ∧
        (checkRateLimit svc now).2.emailsSentInCurrentMinute =
          0 + (if (checkRateLimit svc now).1.toBool then 1 else 0)) ∧
    ((now : Int) - (svc.lastResetTime : Int) < 60000 →
      (checkRateLimit svc now).2.lastResetTime = svc.lastResetTime ∧
        (checkRateLimit svc now).2.emailsSentInCurrentMinute =
          svc.emailsSentInCurrentMinute + (if (checkRateLimit svc now).1.toBool then 1 else 0)) := by
  constructor
  · intro hr
    by_cases hl : (0 : Nat) ≥ svc.config.rateLimitPerMinute
    · simp [checkRateLimit, hr, hl, Except.toBool]
    · simp [checkRateLimit, hr, hl, Except.toBool]
  · intro hlt
    have hr : ¬ ((now : Int) - (svc.lastResetTime : Int) ≥ 60000) := by omega
    by_cases hl : svc.emailsSentInCurrentMinute ≥ svc.config.rateLimitPerMinute
    · simp [checkRateLimit, hr, hl, Except.toBool]
    · simp [checkRateLimit, hr, hl, Except.toBool]

/-- Witness for C16 as amended: exactly 60000 ms after the window start, and
one millisecond earlier. -/
theorem checkRateLimit_reset_rule_witness :
    (checkRateLimit fiveSentService 60000).2.lastResetTime = 60000 ∧
      (checkRateLimit fiveSentService 59999).2.lastResetTime = fiveSentService.lastResetTime :=
  ⟨((checkRateLimit_reset_rule fiveSentService 60000).1 (by decide)).1,
    ((checkRateLimit_reset_rule fiveSentService 59999).2 (by decide)).1⟩

/-! ## What the rejected calls leave behind -/

/-- C18: a `send` that throws `Duplicate email` leaves the whole service as
it was (`sentEmails`, `emailsSentInCurrentMinute`, `lastResetTime` and
`currentProviderIndex` included) and invokes no provider: its trace is empty,
and so none of the rate budget is consumed. -/
theorem duplicate_rejection_frame (svc : EmailService) (email : Email)
    (idClock rateClock : Nat) (oracle : Oracle)
    (hdup : (send svc email idClock rateClock oracle).outcome =
      Outcome.threw "Duplicate email") :
    (send svc email idClock rateClock oracle).service = svc ∧
      (send svc email idClock rateClock oracle).trace = [] ∧
      (send svc email idClock rateClock oracle).service.sentEmails = svc.sentEmails ∧
      (send svc email idClock rateClock oracle).service.emailsSentInCurrentMinute =
        svc.emailsSentInCurrentMinute ∧
      (send svc email idClock rateClock oracle).service.lastResetTime = svc.lastResetTime ∧
      (send svc email idClock rateClock oracle).service.currentProviderIndex =
        svc.currentProviderIndex := by
  have hid := (send_outcome_dup_iff svc email idClock rateClock oracle).mp hdup
  rw [send_of_recorded svc email idClock rateClock oracle hid]
  exact ⟨rfl, rfl, rfl, rfl, rfl, rfl⟩

/-- Witness for C18: the email of the test "Duplicate Email Prevention" sent
again in the same millisecond. -/
theorem duplicate_rejection_frame_witness :
    (send (send (EmailService.construct 1 noOptions 1000) duplicateEmail 1000 1000
        workingPool).service duplicateEmail 1000 1000 workingPool).service =
      (send (EmailService.construct 1 noOptions 1000) duplicateEmail 1000 1000
        workingPool).service :=
  (duplicate_rejection_frame
    (send (EmailService.construct 1 noOptions 1000) duplicateEmail 1000 1000 workingPool).service
    duplicateEmail 1000 1000 workingPool (by decide)).1

theorem orDefault_pos (supplied : Option Nat) (dflt : Nat) (hd : 1 ≤ dflt) :
    1 ≤ orDefault supplied dflt := by
  unfold orDefault
  cases supplied with
  | none => exact hd
  | some v =>
    by_cases hv : v = 0
    · simp [hv, hd]
    · simp only [hv, if_false]
      omega

/-- C19: every service reachable from construction has a limit of at least
one; and on a service with such a limit whose rate budget is exhausted, a
`send` of an email whose identifier `x` is not yet recorded throws
`Rate limit exceeded` without invoking a provider and leaves the count, the
window start and the cursor as they were, but `x` is in `sentEmails`
afterwards; every later `send` that generates `x` throws `Duplicate email`,
again without any provider being invoked. -/
theorem rate_limited_send_records :
    (∀ (poolSize t0 : Nat) (options : Options) (calls : List Call),
      1 ≤ (sendAll (EmailService.construct poolSize options t0)
        calls).2.config.rateLimitPerMinute) ∧
    (∀ (svc : EmailService) (email : Email) (idClock rateClock : Nat) (oracle : Oracle),
      1 ≤ svc.config.rateLimitPerMinute →
      generateEmailId email idClock ∉ svc.sentEmails →
      svc.config.rateLimitPerMinute ≤ postResetCount svc rateClock →
      (send svc email idClock rateClock oracle).outcome = Outcome.threw "Rate limit exceeded" ∧
        (send svc email idClock rateClock oracle).trace = [] ∧
        generateEmailId email idClock ∈
          (send svc email idClock rateClock oracle).service.sentEmails ∧
        (send svc email idClock rateClock oracle).service.emailsSentInCurrentMinute =
          svc.emailsSentInCurrentMinute ∧
        (send svc email idClock rateClock oracle).service.lastResetTime = svc.lastResetTime ∧
        (send svc email idClock rateClock oracle).service.currentProviderIndex =
          svc.currentProviderIndex ∧
        (∀ (between : List Call) (again : Call),
          again.emailId = generateEmailId email idClock →
          (again.run (sendAll (send svc email idClock rateClock oracle).service
              between).2).outcome = Outcome.threw "Duplicate email" ∧
            (again.run (sendAll (send svc email idClock rateClock oracle).service
              between).2).trace = [])) := by
  constructor
  · intro poolSize t0 options calls
    rw [(sendAll_count_le calls (EmailService.construct poolSize options t0)
      (by simp [EmailService.construct])).2]
    exact orDefault_pos options.rateLimitPerMinute 10 (by decide)
  · intro svc email idClock rateClock oracle hL hid hfull
    have hrec := send_records svc email idClock rateClock oracle
    refine ⟨?_, ?_, hrec, ?_, ?_, ?_, ?_⟩
    · rw [send_rate_limited svc email idClock rateClock oracle hid hL hfull]
    · rw [send_rate_limited svc email idClock rateClock oracle hid hL hfull]
    · rw [send_rate_limited svc email idClock rateClock oracle hid hL hfull]
    · rw [send_rate_limited svc email idClock rateClock oracle hid hL hfull]
    · rw [send_rate_limited svc email idClock rateClock oracle hid hL hfull]
    · intro between again hsame
      have hmem : generateEmailId again.email again.idClock ∈
          (sendAll (send svc email idClock rateClock oracle).service between).2.sentEmails := by
        have : again.emailId = generateEmailId again.email again.idClock := rfl
        rw [← this, hsame]
        exact sendAll_keeps _ between _ hrec
      have hrun := send_of_recorded _ again.email again.idClock again.rateClock again.oracle hmem
      exact ⟨congrArg SendRun.outcome hrun, congrArg SendRun.trace hrun⟩

/-- Witness for C19: a default service whose window is full rejects an email
on the rate check and then rejects the same identifier as a duplicate, a
minute later, when the budget is free again. -/
theorem rate_limited_send_records_witness :
    (send fullWindowService duplicateEmail 2000 2000 workingPool).outcome =
        Outcome.threw "Rate limit exceeded" ∧
      (Call.run (sendAll (send fullWindowService duplicateEmail 2000 2000 workingPool).service
          []).2
        { email := duplicateEmail, idClock := 2000, rateClock := 70000,
          oracle := workingPool }).outcome = Outcome.threw "Duplicate email" :=
  have h := rate_limited_send_records.2 fullWindowService duplicateEmail 2000 2000 workingPool
    (by decide) (by decide) (by decide)
  ⟨h.1, (h.2.2.2.2.2.2 []
    { email := duplicateEmail, idClock := 2000, rateClock := 70000, oracle := workingPool }
    rfl).1⟩

/-- C20: the identifier does not depend on the body: two emails with the same
`to` and the same `subject` get the same identifier at the same clock reading,
whatever their bodies; so of two such emails sent in the same millisecond
through one service the second is rejected with `Duplicate email`. -/
theorem body_not_in_identifier :
    (∀ (first second : Email) (t : Nat),
      first.recipient = second.recipient → first.subject = second.subject →
      generateEmailId first t = generateEmailId second t) ∧
    (∀ (svc : EmailService) (first second : Email) (t rate1 rate2 : Nat)
      (oracle1 oracle2 : Oracle),
      first.recipient = second.recipient → first.subject = second.subject →
      (send (send svc first t rate1 oracle1).service second t rate2 oracle2).outcome =
        Outcome.threw "Duplicate email") := by
  have hsame : ∀ (first second : Email) (t : Nat),
      first.recipient = second.recipient → first.subject = second.subject →
      generateEmailId first t = generateEmailId second t := by
    intro first second t hr hs
    simp only [generateEmailId, hr, hs]
  refine ⟨hsame, ?_⟩
  intro svc first second t rate1 rate2 oracle1 oracle2 hr hs
  have hrec := send_records svc first t rate1 oracle1
  rw [hsame first second t hr hs] at hrec
  exact congrArg SendRun.outcome (send_of_recorded _ second t rate2 oracle2 hrec)

/-- Witness for C20: the email of the test "Duplicate Email Prevention" and
the same email with another body, sent in the same millisecond. -/
theorem body_not_in_identifier_witness :
    (send (send (EmailService.construct 1 noOptions 1000) duplicateEmail 1000 1000
        workingPool).service { duplicateEmail with body := "Another body." } 1000 1000
        workingPool).outcome = Outcome.threw "Duplicate email" :=
  body_not_in_identifier.2 (EmailService.construct 1 noOptions 1000) duplicateEmail
    { duplicateEmail with body := "Another body." } 1000 1000 1000 workingPool workingPool
    rfl rfl

/-! ## Collisions of the identifier -/

theorem split_at_first (c : Char) :
    ∀ (xs xs1 ys ys1 : List Char), c ∉ xs → c ∉ xs1 →
      xs ++ c :: ys = xs1 ++ c :: ys1 → xs = xs1 ∧ ys = ys1
  | [], [], _, _, _, _, h => ⟨rfl, List.tail_eq_of_cons_eq h⟩
  | [], a :: xs1, _, _, _, h1, h => by
    have hca : c = a := List.head_eq_of_cons_eq h
    exact absurd (hca ▸ List.mem_cons_self _ _) h1
  | a :: xs, [], _, _, h0, _, h => by
    have hac : a = c := List.head_eq_of_cons_eq h
    exact absurd (hac ▸ List.mem_cons_self _ _) h0
  | a :: xs, b :: xs1, ys, ys1, h0, h1, h => by
    have hab : a = b := List.head_eq_of_cons_eq h
    have ht : xs ++ c :: ys = xs1 ++ c :: ys1 := List.tail_eq_of_cons_eq h
    obtain ⟨hx, hy⟩ := split_at_first c xs xs1 ys ys1
      (fun hm => h0 (List.mem_cons_of_mem _ hm)) (fun hm => h1 (List.mem_cons_of_mem _ hm)) ht
    exact ⟨by rw [hab, hx], hy⟩

theorem split_at_last (c : Char) (xs xs1 ds ds1 : List Char) (h0 : c ∉ ds) (h1 : c ∉ ds1)
    (h : xs ++ c :: ds = xs1 ++ c :: ds1) : xs = xs1 ∧ ds = ds1 := by
  have hrev := congrArg List.reverse h
  simp only [List.reverse_append, List.reverse_cons, List.append_assoc, List.singleton_append]
    at hrev
  obtain ⟨hd, hx⟩ := split_at_first c ds.reverse ds1.reverse xs.reverse xs1.reverse
    (by simpa using h0) (by simpa using h1) hrev
  exact ⟨List.reverse_injective hx, List.reverse_injective hd⟩

theorem digitChar_ne_underscore (d : Nat) (hd : d < 10) : Nat.digitChar d ≠ '_' := by
  interval_cases d <;> decide

theorem toDigitsCore_chars :
    ∀ (fuel n : Nat) (ds : List Char) (c : Char), c ∈ Nat.toDigitsCore 10 fuel n ds →
      c ∈ ds ∨ ∃ d, d < 10 ∧ c = Nat.digitChar d
  | 0, _, _, _, h => Or.inl h
  | fuel + 1, n, ds, c, h => by
    have hd : n % 10 < 10 := Nat.mod_lt _ (by decide)
    by_cases hq : n / 10 = 0
    · simp only [Nat.toDigitsCore, hq, if_true] at h
      rcases List.mem_cons.mp h with h | h
      · exact Or.inr ⟨n % 10, hd, h⟩
      · exact Or.inl h
    · simp only [Nat.toDigitsCore, hq, if_false] at h
      rcases toDigitsCore_chars fuel (n / 10) _ c h with h | h
      · rcases List.mem_cons.mp h with h | h
        · exact Or.inr ⟨n % 10, hd, h⟩
        · exact Or.inl h
      · exact Or.inr h

theorem underscore_not_in_repr (t : Nat) : '_' ∉ (Nat.repr t).data := by
  intro h
  have h1 : '_' ∈ Nat.toDigitsCore 10 (t + 1) t [] := h
  rcases toDigitsCore_chars (t + 1) t [] '_' h1 with h2 | ⟨d, hd, h2⟩
  · exact absurd h2 (List.not_mem_nil _)
  · exact digitChar_ne_underscore d hd h2.symm

/-- C17 as the claim states it fails: the email to `build_bot` with the subject
`Nightly report` and the email to `build` with the subject
`bot_Nightly report` get the same identifier at the same clock reading,
although their recipients and their subjects differ. -/
theorem identifier_collision :
    generateEmailId aliasEmail 1000 = generateEmailId shiftedEmail 1000 ∧
      aliasEmail.recipient ≠ shiftedEmail.recipient ∧
      aliasEmail.subject ≠ shiftedEmail.subject := by
  decide

/-- C17 as amended: when `_generateEmailId` yields the same identifier for two
submissions, their timestamps are equal and the texts `to + "_" + subject` are
equal; the recipients and the subjects are themselves equal whenever neither
recipient contains an underscore. -/
theorem generateEmailId_collisions (first second : Email) (t1 t2 : Nat)
    (h : generateEmailId first t1 = generateEmailId second t2) :
    t1 = t2 ∧
      first.recipient ++ "_" ++ first.subject = second.recipient ++ "_" ++ second.subject ∧
      ('_' ∉ first.recipient.data → '_' ∉ second.recipient.data →
        first.recipient = second.recipient ∧ first.subject = second.subject) := by
  have hdata := congrArg String.data h
  simp only [generateEmailId, String.data_append] at hdata
  have hsep : ("_" : String).data = ['_'] := rfl
  have hsplit := split_at_last '_'
    (first.recipient.data ++ ['_'] ++ first.subject.data)
    (second.recipient.data ++ ['_'] ++ second.subject.data)
    (Nat.repr t1).data (Nat.repr t2).data
    (underscore_not_in_repr t1) (underscore_not_in_repr t2)
    (by simpa using hdata)
  refine ⟨repr_injective t1 t2 (String.ext hsplit.2), ?_, ?_⟩
  · apply String.ext
    simp only [String.data_append, hsep]
    exact hsplit.1
  · intro h1 h2
    have hfirst := split_at_first '_' first.recipient.data second.recipient.data
      first.subject.data second.subject.data h1 h2 (by simpa using hsplit.1)
    exact ⟨String.ext hfirst.1, String.ext hfirst.2⟩

/-- Witness for C17 as amended: the two colliding emails at one clock
reading. -/
theorem generateEmailId_collisions_witness :
    (1000 : Nat) = 1000 ∧
      aliasEmail.recipient ++ "_" ++ aliasEmail.subject =
        shiftedEmail.recipient ++ "_" ++ shiftedEmail.subject :=
  have h := generateEmailId_collisions aliasEmail shiftedEmail 1000 1000 (by decide)
  ⟨h.1, h.2.1⟩

end ResilientEmail
